import Mathlib

/-!
Verification development for the ichat_to_eml repository.

The repository converts legacy iChat logs to EML files.  The parts embedded
here are the ones the specification's claims are about:

* src/rtfd_decode.py    — the rtfd container decoder (has_rtfd_magic, decode_rtfd)
* src/attachment_type.py — determine_attachment_type
* src/bplist_decode.py  — bplist_to_conv (Archive Adapter A)
* src/ichat_to_eml.py   — parse_typedstream_chat (Archive Adapter B)

Modelling conventions:

* Python byte strings are `List Nat` (each element a byte value 0–255).
* Python text strings are `List Nat` of Unicode code points (`PyStr`); for the
  ASCII literals appearing in the source the helper `ps` maps a Lean string
  literal to its code-point list.
* Python runtime exceptions are the constructors of `PyErr`; fallible code is
  embedded in `Except PyErr`.  `struct.error` (raised by `struct.unpack` when
  a format count is negative or the buffer length does not match the format)
  is `PyErr.structError`; the `TypeError` raised by `has_rtfd_magic` and
  `decode_rtfd` is `PyErr.typeError`; `bytes.decode` failures are
  `PyErr.unicodeDecodeError`.
* Python slicing (including negative indices counted from the end) is
  modelled by `pyslice` / `pysliceFrom`.
-/

/-- Python runtime error kinds relevant to the embedded code. -/
inductive PyErr where
  | typeError
  | structError
  | unicodeDecodeError
  | attributeError
  | indexError
  | keyError
  deriving DecidableEq, Repr

/-- Code points (or byte values) of a Lean string literal; used to write the
string and bytes literals of the Python source. -/
def ps (s : String) : List Nat := s.data.map Char.toNat

/-- Python text strings, as lists of Unicode code points. -/
abbrev PyStr := List Nat

/-- Clamp an (possibly negative) Python slice bound into `[0, len]`:
negative indices count from the end, as in Python. -/
def pyBound (len : Nat) (i : Int) : Nat :=
  if i < 0 then ((len : Int) + i).toNat else min i.toNat len

/-- Python slice `bs[a:b]`. -/
def pyslice (bs : List Nat) (a b : Int) : List Nat :=
  (bs.take (pyBound bs.length b)).drop (pyBound bs.length a)

/-- Python slice `bs[a:]`. -/
def pysliceFrom (bs : List Nat) (a : Int) : List Nat :=
  bs.drop (pyBound bs.length a)

/-- `struct.unpack` of one little-endian signed 32-bit integer
(format codes < i and < l in the source): the buffer must be exactly
4 bytes long, otherwise `struct.error`. -/
def unpackI32 : List Nat → Except PyErr Int
  | [b0, b1, b2, b3] =>
      let u : Nat := b0 + 256 * b1 + 65536 * b2 + 16777216 * b3
      .ok (if u < 2147483648 then (u : Int) else (u : Int) - 4294967296)
  | _ => .error .structError

/-- Read a little-endian signed 32-bit integer from `data` at offset `off`,
i.e. the source pattern struct.unpack of data[off:off+4]. -/
def readI32 (data : List Nat) (off : Int) : Except PyErr Int :=
  unpackI32 (pyslice data off (off + 4))

/-- `struct.unpack` with format `str(n)+c` applied to a slice: fails with
`struct.error` when `n` is negative (ill-formed format string) or when the
slice length differs from `n`; otherwise returns the bytes unchanged. -/
def unpackCBytes (n : Int) (sl : List Nat) : Except PyErr (List Nat) :=
  if n < 0 then .error .structError
  else if (sl.length : Int) = n then .ok sl else .error .structError

/-- The magic marker b'rtfd'. -/
def rtfdMagic : List Nat := ps ("rtfd")

/-- The test `data[:4] == b'rtfd'` on a byte string. -/
def hasRtfdMagicB (data : List Nat) : Bool := data.take 4 == rtfdMagic

/-- Strict UTF-8 decoding (bytes to code points) as performed by Python's
`bytes.decode` with encoding utf-8: rejects truncated sequences, stray or
out-of-range continuation bytes, overlong encodings, surrogates and values
above U+10FFFF.  Arguments: input bytes, number of pending continuation
bytes, accumulated code point, and the admissible range for the next byte. -/
def utf8Go : List Nat → Nat → Nat → Nat → Nat → Except PyErr (List Nat)
  | [], 0, _, _, _ => .ok []
  | [], _+1, _, _, _ => .error .unicodeDecodeError
  | b :: rest, 0, _, _, _ =>
      if b < 0x80 then (fun t => b :: t) <$> utf8Go rest 0 0 0 0
      else if 0xC2 ≤ b && b ≤ 0xDF then utf8Go rest 1 (b % 0x20) 0x80 0xBF
      else if b == 0xE0 then utf8Go rest 2 0 0xA0 0xBF
      else if 0xE1 ≤ b && b ≤ 0xEC then utf8Go rest 2 (b % 0x10) 0x80 0xBF
      else if b == 0xED then utf8Go rest 2 0xD 0x80 0x9F
      else if 0xEE ≤ b && b ≤ 0xEF then utf8Go rest 2 (b % 0x10) 0x80 0xBF
      else if b == 0xF0 then utf8Go rest 3 0 0x90 0xBF
      else if 0xF1 ≤ b && b ≤ 0xF3 then utf8Go rest 3 (b % 8) 0x80 0xBF
      else if b == 0xF4 then utf8Go rest 3 4 0x80 0x8F
      else .error .unicodeDecodeError
  | b :: rest, k+1, acc, lo, hi =>
      if lo ≤ b && b ≤ hi then
        let acc2 := acc * 64 + (b % 0x40)
        match k with
        | 0 => (fun t => acc2 :: t) <$> utf8Go rest 0 0 0 0
        | k2+1 => utf8Go rest (k2+1) acc2 0x80 0xBF
      else .error .unicodeDecodeError

/-- Python `bs.decode(utf-8)`. -/
def utf8Decode (bs : List Nat) : Except PyErr (List Nat) :=
  utf8Go bs 0 0 0 0

/-- Python `bs.decode(ascii)`: every byte must be below 128. -/
def asciiDecode (bs : List Nat) : Except PyErr (List Nat) :=
  if bs.all (· < 128) then .ok bs else .error .unicodeDecodeError

/-- One part dictionary built by decode_rtfd: index, name, size, raw
content bytes and the decoded file bytes. -/
structure RtfdPart where
  index : Nat
  name : List Nat
  size : Int
  contentbytes : List Nat
  filebytes : List Nat
  deriving Repr

/-- The output dictionary of decode_rtfd; each key may be absent when no
part carries the corresponding sentinel name. -/
structure RtfdOut where
  filename : Option (List Nat)
  data : Option (List Nat)
  deriving Repr

/-- The part-name table loop of decode_rtfd (source lines 47–59): for each
of the `numberparts` iterations read a 4-byte length then that many name
bytes, advancing the offset.  Returns the names in order and the offset
after the table. -/
def readPartNames (data : List Nat) : Nat → Int → Except PyErr (List (List Nat) × Int)
  | 0, off => .ok ([], off)
  | k+1, off => do
      let partnamelen ← unpackI32 (pyslice data off (off + 4))
      let name ← unpackCBytes partnamelen (pyslice data (off + 4) (off + 4 + partnamelen))
      let (rest, off2) ← readPartNames data k (off + 4 + partnamelen)
      return (name :: rest, off2)

/-- The size table loop of decode_rtfd (source lines 63–66): one 4-byte
signed size per part, in part order. -/
def readPartSizes (data : List Nat) : Nat → Int → Except PyErr (List Int × Int)
  | 0, off => .ok ([], off)
  | k+1, off => do
      let size ← unpackI32 (pyslice data off (off + 4))
      let (rest, off2) ← readPartSizes data k (off + 4)
      return (size :: rest, off2)

/-- The content table loop of decode_rtfd (source lines 69–73): for each
part in order read exactly `size` content bytes. -/
def readPartContents (data : List Nat) : List Int → Int → Except PyErr (List (List Nat) × Int)
  | [], off => .ok ([], off)
  | s :: rest, off => do
      let content ← unpackCBytes s (pyslice data off (off + s))
      let (cs, off2) ← readPartContents data rest (off + s)
      return (content :: cs, off2)

/-- The inner-header interpretation of one part's content block (source
lines 78–87): read the 4-byte content header and the declared content
size; when the declared size equals the sentinel -2147483648 switch to the
extended layout (true size from inner bytes 8–11, padding length from
inner bytes 12–15, content start = padding + 16), otherwise the standard
layout (size as declared, content start 8).  Returns (content_size,
content_start). -/
def contentGeometry (cb : List Nat) : Except PyErr (Int × Int) := do
  let _content_header ← unpackI32 (pyslice cb 0 4)
  let content_size ← unpackI32 (pyslice cb 4 8)
  if content_size = -2147483648 then do
    let content_size2 ← unpackI32 (pyslice cb 8 12)
    let pad ← unpackI32 (pyslice cb 12 16)
    return (content_size2, pad + 16)
  else
    return (content_size, 8)

/-- Decoding of one part's file bytes from its content block (source lines
76–90): compute the geometry, then unpack `content_size` bytes from
`contentbytes[content_start:]` — `struct.unpack` requires that remaining
slice to be exactly `content_size` bytes long. -/
def parseContent (cb : List Nat) : Except PyErr (List Nat) := do
  let (content_size, content_start) ← contentGeometry cb
  unpackCBytes content_size (pysliceFrom cb content_start)

/-- The two filename sentinel part names. -/
def utf8NameSentinel : List Nat := ps ("__@UTF8PreferredName@__")

/-- The plain (ASCII) filename sentinel part name. -/
def plainNameSentinel : List Nat := ps ("__@PreferredName@__")

/-- Filename resolution loop of decode_rtfd (source lines 96–102): scan the
parts in container order, the first part named with either filename
sentinel supplies the filename (UTF-8 decoded for the UTF8 sentinel, ASCII
decoded for the plain sentinel), then break. -/
def resolveFilename : List RtfdPart → Except PyErr (Option (List Nat))
  | [] => .ok Option.none
  | p :: rest =>
      if p.name = utf8NameSentinel then (fun s => some s) <$> utf8Decode p.filebytes
      else if p.name = plainNameSentinel then (fun s => some s) <$> asciiDecode p.filebytes
      else resolveFilename rest

/-- Data resolution loop of decode_rtfd (source lines 106–112): scan the
parts in container order, the first part named `..` or `.` supplies the
data, then break. -/
def resolveData : List RtfdPart → Option (List Nat)
  | [] => none
  | p :: rest =>
      if p.name = ps ("..") then some p.filebytes
      else if p.name = ps (".") then some p.filebytes
      else resolveData rest

/-- Assemble the per-part dictionaries (index, name, size, contentbytes,
filebytes) from the positionally correlated stage outputs. -/
def buildParts : Nat → List (List Nat) → List Int → List (List Nat) → List (List Nat) → List RtfdPart
  | i, n :: ns, s :: ss, c :: cs, f :: fs => ⟨i, n, s, c, f⟩ :: buildParts (i+1) ns ss cs fs
  | _, _, _, _, _ => []

/-- decode_rtfd (src/rtfd_decode.py lines 36–130): magic check, fixed
16-byte header, the three positionally correlated tables (names, sizes,
contents), the per-part inner-header decoding, and the filename/data
resolution scans. -/
def decode_rtfd (data : List Nat) : Except PyErr RtfdOut := do
  if hasRtfdMagicB data then do
    let _padding ← readI32 data 4
    let _version ← readI32 data 8
    let numberparts ← readI32 data 12
    let (names, off1) ← readPartNames data numberparts.toNat 16
    let (sizes, off2) ← readPartSizes data names.length off1
    let (contents, _off3) ← readPartContents data sizes off2
    let filebytesList ← contents.mapM parseContent
    let parts := buildParts 0 names sizes contents filebytesList
    let filename ← resolveFilename parts
    let fdata := resolveData parts
    return ⟨filename, fdata⟩
  else .error .typeError

/-! ## Dynamically typed Python values

The two archive adapters traverse heterogeneous object graphs produced by
external deserializers (ccl_bplist for Adapter A, the typedstream library
for Adapter B).  `PyVal` models the Python values occurring in those
graphs: scalars, byte/text strings, datetimes (as integer timestamps —
only their identity matters to the embedded code), lists,
insertion-ordered dictionaries, and generic objects with named attributes.
-/

/-- A dynamically typed Python value. -/
inductive PyVal where
  | none
  | bool (b : Bool)
  | int (n : Int)
  | str (s : List Nat)
  | bytes (bs : List Nat)
  | dt (t : Int)
  | list (xs : List PyVal)
  | dict (kvs : List (PyVal × PyVal))
  | obj (attrs : List (String × PyVal))
  deriving Repr

mutual

/-- Fuel-driven structural equality on `PyVal` (Python `==`).  The fuel is
always sufficient when called through `pyEq` below.  Scalars, strings,
lists and dicts compare structurally as in Python; generic objects are
also compared structurally (the source only ever compares strings at the
points where `==` / `in` occur). -/
def pyEqF : Nat → PyVal → PyVal → Bool
  | 0, _, _ => false
  | f+1, a, b =>
    match a, b with
    | .none, .none => true
    | .bool x, .bool y => x == y
    | .int x, .int y => x == y
    | .str x, .str y => x == y
    | .bytes x, .bytes y => x == y
    | .dt x, .dt y => x == y
    | .list xs, .list ys => pyEqListF f xs ys
    | .dict xs, .dict ys => pyEqKVF f xs ys
    | .obj xs, .obj ys => pyEqAttrF f xs ys
    | _, _ => false

/-- Elementwise equality of value lists, threading the fuel. -/
def pyEqListF : Nat → List PyVal → List PyVal → Bool
  | 0, _, _ => false
  | _+1, [], [] => true
  | f+1, x :: xs, y :: ys => pyEqF f x y && pyEqListF f xs ys
  | _+1, _, _ => false

/-- Pairwise equality of dict entry lists, threading the fuel. -/
def pyEqKVF : Nat → List (PyVal × PyVal) → List (PyVal × PyVal) → Bool
  | 0, _, _ => false
  | _+1, [], [] => true
  | f+1, (k1, v1) :: xs, (k2, v2) :: ys =>
      pyEqF f k1 k2 && pyEqF f v1 v2 && pyEqKVF f xs ys
  | _+1, _, _ => false

/-- Pairwise equality of attribute lists, threading the fuel. -/
def pyEqAttrF : Nat → List (String × PyVal) → List (String × PyVal) → Bool
  | 0, _, _ => false
  | _+1, [], [] => true
  | f+1, (k1, v1) :: xs, (k2, v2) :: ys =>
      k1 == k2 && pyEqF f v1 v2 && pyEqAttrF f xs ys
  | _+1, _, _ => false

end

/-- Python `==` on two values.  One unit of fuel is consumed per
constructor descended, so the fixed bound is reached only on values nested
more than a million constructors deep — far beyond anything the embedded
code or the claims touch (and no claim in this development depends on the
result of a comparison at such depth). -/
def pyEq (a b : PyVal) : Bool := pyEqF 1000000 a b

/-- has_rtfd_magic (src/rtfd_decode.py lines 27–33) on a dynamically typed
input: a non-bytes argument raises `TypeError`; on bytes the first four
bytes are compared with b'rtfd' and the function returns a boolean,
whatever the input length. -/
def has_rtfd_magic (data : PyVal) : Except PyErr Bool :=
  match data with
  | .bytes bs => .ok (hasRtfdMagicB bs)
  | _ => .error .typeError

/-- Stand-in for the external libmagic collaborator
(`magic.from_buffer(data, mime=True)` in src/attachment_type.py).  The
embedded code relies on no property of the returned MIME string except
that the sniffer is total on bytes and never returns the private
nsfilewrapper type (which has no official IANA registration). -/
def magicFromBuffer (_bs : List Nat) : PyStr := ps ("application/octet-stream")

/-- The private MIME type for serialized NSFileWrapper data. -/
def nsFileWrapperMime : PyStr := ps ("application/x-nsfilewrapper-serialized")

/-- determine_attachment_type (src/attachment_type.py lines 12–30): bytes
with the rtfd magic are reported as the private nsfilewrapper type,
anything else is delegated to libmagic; a non-bytes argument raises
`TypeError` from has_rtfd_magic. -/
def determine_attachment_type (data : PyVal) : Except PyErr PyStr :=
  match data with
  | .bytes bs =>
      .ok (if hasRtfdMagicB bs then nsFileWrapperMime else magicFromBuffer bs)
  | _ => .error .typeError

/-- Stand-in for `hashlib.md5(data).hexdigest()`.  The digest value is
never inspected by the embedded code or by any claim — only its presence
or absence on an attachment matters — so the model simply tags the hashed
bytes. -/
def md5Hexdigest (bs : List Nat) : PyStr := bs

/-! ## Concrete rtfd container buffers used by the claims -/

/-- A 32-bit little-endian encoding helper for building the example
buffers. -/
def le32 (n : Nat) : List Nat :=
  [n % 256, n / 256 % 256, n / 65536 % 256, n / 16777216 % 256]

/-- A standard-layout content block for a payload: inner header 1, the
declared size, then exactly that many payload bytes. -/
def stdPartContent (payload : List Nat) : List Nat :=
  le32 1 ++ le32 payload.length ++ payload

/-- Build an rtfd container buffer from named parts with given content
blocks (header with version 3, name table, size table, content table). -/
def mkRtfd (parts : List (List Nat × List Nat)) : List Nat :=
  rtfdMagic ++ le32 0 ++ le32 3 ++ le32 parts.length
  ++ (parts.map (fun p => le32 p.1.length ++ p.1)).flatten
  ++ (parts.map (fun p => le32 p.2.length)).flatten
  ++ (parts.map (fun p => p.2)).flatten

/-- The two-part container of the spec's end-to-end example, written
exactly as the spec describes it: the `.` part's inner header declares
content size 5 but is followed by 8 content bytes. -/
def rtfdExampleSpec : List Nat :=
  mkRtfd [(utf8NameSentinel, stdPartContent (ps ("note.txt"))),
          (ps ("."), le32 1 ++ le32 5 ++ ps ("hello") ++ [0, 0, 0])]

/-- The corrected two-part container: the `.` part's content block carries
exactly the 5 declared content bytes. -/
def rtfdExampleExact : List Nat :=
  mkRtfd [(utf8NameSentinel, stdPartContent (ps ("note.txt"))),
          (ps ("."), le32 1 ++ le32 5 ++ ps ("hello"))]

/-- A standard-layout content block carrying the payload b'hello'. -/
def stdLayoutBlock : List Nat := stdPartContent (ps ("hello"))

/-- An extended-layout content block carrying the same payload b'hello':
declared size is the sentinel -2147483648, the true size 5 follows, then a
padding length of 2, two padding bytes, and the payload. -/
def extLayoutBlock : List Nat :=
  le32 1 ++ [0, 0, 0, 0x80] ++ le32 5 ++ le32 2 ++ [0, 0] ++ ps ("hello")

/-- A container in which the plain filename sentinel precedes the UTF-8
one and the part named `.` precedes the one named `..`. -/
def rtfdOrderBufA : List Nat :=
  mkRtfd [(plainNameSentinel, stdPartContent (ps ("a.txt"))),
          (utf8NameSentinel, stdPartContent (ps ("b.txt"))),
          (ps ("."), stdPartContent (ps ("dotdata"))),
          (ps (".."), stdPartContent (ps ("dotdotdata")))]

/-- The same four parts with each pair in the opposite order. -/
def rtfdOrderBufB : List Nat :=
  mkRtfd [(utf8NameSentinel, stdPartContent (ps ("b.txt"))),
          (plainNameSentinel, stdPartContent (ps ("a.txt"))),
          (ps (".."), stdPartContent (ps ("dotdotdata"))),
          (ps ("."), stdPartContent (ps ("dotdata")))]

/-- Modelled from the spec (§4.1 step 9): filename resolution picks
whichever of the two sentinel-named parts appears first in container
order, with no preference between the two names; stated with `List.find?`
to compare against the source's scan-with-break loop. -/
def filenameResolutionSpec (parts : List RtfdPart) : Except PyErr (Option (List Nat)) :=
  match parts.find? (fun p => decide (p.name = utf8NameSentinel) || decide (p.name = plainNameSentinel)) with
  | Option.none => .ok Option.none
  | some p =>
      if p.name = utf8NameSentinel then (fun s => some s) <$> utf8Decode p.filebytes
      else (fun s => some s) <$> asciiDecode p.filebytes

/-- Modelled from the spec (§4.1 step 10): data resolution picks whichever
part named `..` or `.` appears first in container order. -/
def dataResolutionSpec (parts : List RtfdPart) : Option (List Nat) :=
  (parts.find? (fun p => decide (p.name = ps ("..")) || decide (p.name = ps (".")))).map
    (fun p => p.filebytes)

/-! ## Python operations used by the adapters -/

/-- Attribute access `v.a` on a dynamic value: only the generic archived
objects in the graphs carry attributes; a missing attribute, or attribute
access on any other value, raises AttributeError (the string/bytes/dict
methods the source calls — decode, strip, split, items — are modelled as
dedicated operations below and likewise raise AttributeError when applied
to a value of the wrong type). -/
def pyGetattr (v : PyVal) (a : String) : Except PyErr PyVal :=
  match v with
  | .obj attrs =>
      match attrs.find? (fun p => p.1 == a) with
      | some p => .ok p.2
      | Option.none => .error .attributeError
  | _ => .error .attributeError

/-- Subscript `v[k]`: list indexing (negative indices count from the end,
out of range raises IndexError), dict lookup (missing key raises KeyError,
keys compared with Python equality), anything else raises TypeError. -/
def pySubscript (v k : PyVal) : Except PyErr PyVal :=
  match v with
  | .list xs =>
      match k with
      | .int n =>
          let i : Int := if n < 0 then n + xs.length else n
          if i < 0 then .error .indexError
          else
            match xs[i.toNat]? with
            | some x => .ok x
            | Option.none => .error .indexError
      | _ => .error .typeError
  | .dict kvs =>
      match kvs.find? (fun p => pyEq p.1 k) with
      | some p => .ok p.2
      | Option.none => .error .keyError
  | _ => .error .typeError

/-- Subscripting with an integer literal, `v[n]`. -/
def pyIndex (v : PyVal) (n : Int) : Except PyErr PyVal := pySubscript v (.int n)

/-- Whether `xs` occurs as a contiguous run inside `s` (Python substring
membership). -/
def listIsInfix (xs : List Nat) : List Nat → Bool
  | [] => xs.isEmpty
  | c :: rest => xs.isPrefixOf (c :: rest) || listIsInfix xs rest

/-- Python membership `x in c`: element membership for lists, key
membership for dicts, substring tests for strings and bytes (an `in` test
on any other container raises TypeError). -/
def pyContains (x c : PyVal) : Except PyErr Bool :=
  match c with
  | .list xs => .ok (xs.any (fun y => pyEq x y))
  | .dict kvs => .ok (kvs.any (fun p => pyEq p.1 x))
  | .str s =>
      match x with
      | .str xs => .ok (listIsInfix xs s)
      | _ => .error .typeError
  | .bytes s =>
      match x with
      | .bytes xs => .ok (listIsInfix xs s)
      | _ => .error .typeError
  | _ => .error .typeError

/-- Python truthiness, as used by `if wrapper:`. -/
def pyTruthy : PyVal → Bool
  | .none => false
  | .bool b => b
  | .int n => n != 0
  | .str s => !s.isEmpty
  | .bytes s => !s.isEmpty
  | .dt _ => true
  | .list xs => !xs.isEmpty
  | .dict kvs => !kvs.isEmpty
  | .obj _ => true

/-- Test `isinstance(v, str)`. -/
def pyIsStr : PyVal → Bool
  | .str _ => true
  | _ => false

/-- Test `isinstance(v, list)`. -/
def pyIsList : PyVal → Bool
  | .list _ => true
  | _ => false

/-- Test `isinstance(v, datetime.datetime)`. -/
def pyIsDatetime : PyVal → Bool
  | .dt _ => true
  | _ => false

/-- Test `v is None`. -/
def pyIsNone : PyVal → Bool
  | .none => true
  | _ => false

/-- Iteration over a dynamic value in a for loop: lists yield their
elements, dicts their keys, strings their characters, bytes their byte
values; anything else raises TypeError. -/
def pyIterate (v : PyVal) : Except PyErr (List PyVal) :=
  match v with
  | .list xs => .ok xs
  | .dict kvs => .ok (kvs.map (fun p => p.1))
  | .str s => .ok (s.map (fun c => PyVal.str [c]))
  | .bytes bs => .ok (bs.map (fun b => PyVal.int b))
  | _ => .error .typeError

/-- Method call `v.decode(utf-8)`: defined on bytes only (anything else
lacks the method and raises AttributeError); invalid UTF-8 raises
UnicodeDecodeError. -/
def pyDecodeUtf8 (v : PyVal) : Except PyErr PyVal :=
  match v with
  | .bytes bs => (fun cps => PyVal.str cps) <$> utf8Decode bs
  | _ => .error .attributeError

/-- ASCII whitespace stripped by Python's `str.strip`. -/
def isSpaceCp (c : Nat) : Bool :=
  c == 32 || c == 9 || c == 10 || c == 13 || c == 11 || c == 12

/-- Method call `v.strip()` on a string, yielding the stripped code
points; on anything else raises AttributeError. -/
def pyStripStr (v : PyVal) : Except PyErr PyStr :=
  match v with
  | .str s => .ok (((s.dropWhile isSpaceCp).reverse.dropWhile isSpaceCp).reverse)
  | _ => .error .attributeError

/-- Split a code-point list on a separator, keeping empty pieces, as
Python's `str.split` with an explicit separator does. -/
def splitOn (sep : Nat) : List Nat → List (List Nat)
  | [] => [[]]
  | c :: rest =>
      let r := splitOn sep rest
      if c == sep then [] :: r
      else
        match r with
        | h :: t => (c :: h) :: t
        | [] => [[c]]

/-- The idiom `v.split(c)[-1]` applied to a string (every split result is
non-empty, so the -1 index never fails); on anything else the split call
raises AttributeError. -/
def pySplitLastStr (sep : Nat) (v : PyVal) : Except PyErr PyStr :=
  match v with
  | .str s => .ok ((splitOn sep s).getLastD [])
  | _ => .error .attributeError

/-- Method call `v.items()` on a dict, yielding its key/value pairs in
insertion order; on anything else raises AttributeError. -/
def pyItems (v : PyVal) : Except PyErr (List (PyVal × PyVal)) :=
  match v with
  | .dict kvs => .ok kvs
  | _ => .error .attributeError

/-- The call `pytz.UTC.localize(v)`: yields the timestamp of a datetime
value; on anything else pytz fails (the exact exception kind is never
caught by the embedded code, so it is modelled as AttributeError). -/
def pytzLocalize (v : PyVal) : Except PyErr Int :=
  match v with
  | .dt t => .ok t
  | _ => .error .attributeError

/-! ## The canonical conversation model shared by both adapters

The adapters build Python dictionaries; a dictionary key that may or may
not be present is an `Option` field.  Field names follow the source's
dictionary keys (`sender` is the source's `from` key, `mimeType` the
attachment's `type` key, `contentId` its `Content-ID` key).
-/

/-- An attachment dictionary. -/
structure PyAttachment where
  filename : Option (List Nat) := Option.none
  data : Option PyVal := Option.none
  name : Option PyVal := Option.none
  mimeType : Option PyStr := Option.none
  contentId : Option PyStr := Option.none
  deriving Repr

/-- A message dictionary. -/
structure PyMessage where
  guid : Option PyVal := Option.none
  sender : Option PyVal := Option.none
  fromguid : Option PyVal := Option.none
  dateobj : Option Int := Option.none
  text : Option PyVal := Option.none
  textfont : Option PyVal := Option.none
  textsize : Option PyVal := Option.none
  textcolor : Option PyStr := Option.none
  bgcolor : Option PyStr := Option.none
  attachment : Option PyAttachment := Option.none
  deriving Repr

/-- The conversation dictionary. -/
structure Conversation where
  participants : List PyVal := []
  userids : List PyStr := []
  names : List PyStr := []
  messages : List PyMessage := []
  startobj : Option Int := Option.none
  endobj : Option Int := Option.none
  dateobj : Option Int := Option.none
  protocol : Option PyVal := Option.none
  totalmessages : Option PyVal := Option.none
  hasattachments : Option Bool := Option.none
  deriving Repr

/-- The shared participants normalization (src/bplist_decode.py lines
140–141 and src/ichat_to_eml.py lines 222–223): when fewer than 2
participants were discovered, append the sentinel UNKNOWN once. -/
def padParticipants (parts : List PyVal) : List PyVal :=
  if parts.length < 2 then parts ++ [.str (ps ("UNKNOWN"))] else parts

/-! ## Archive Adapter A: bplist_to_conv (src/bplist_decode.py)

The source first deserializes the binary plist with the external
ccl_bplist library; the embedding starts from the resulting object graph
`base_obj` (a dict with keys root and metadata) and covers lines 45–143.
-/

/-- One message object of the bplist message loop (source lines 90–134):
build the message dictionary from the GUID / Sender / Time / MessageText
entries, extend the participants list via the sender identifier, and
set the has-attachments flag when an NSFileWrapper entry is seen.
Returns the message together with the updated participants list and flag
(the only conversation state this loop body touches). -/
def bplistMessage (parts0 : List PyVal) (hasatt0 : Option Bool) (mo : PyVal) :
    Except PyErr (PyMessage × List PyVal × Option Bool) := do
  let m : PyMessage := {}
  let hasGuid ← pyContains (.str (ps ("GUID"))) mo
  let m ← (if hasGuid then do
      let g ← pySubscript mo (.str (ps ("GUID")))
      pure { m with guid := some g }
    else pure m)
  let hasSender ← pyContains (.str (ps ("Sender"))) mo
  let (m, parts) ← (if hasSender then do
      let s ← pySubscript mo (.str (ps ("Sender")))
      if pyIsNone s then
        pure ({ m with sender := some (.str []) }, parts0)
      else do
        let hasId ← pyContains (.str (ps ("ID"))) s
        if hasId then do
          let idv ← pySubscript s (.str (ps ("ID")))
          let fromv ← pySplitLastStr 58 idv
          let parts1 := if parts0.any (fun y => pyEq (.str fromv) y) then parts0
                        else parts0 ++ [.str fromv]
          pure ({ m with sender := some (.str fromv) }, parts1)
        else do
          let hasAcc ← pyContains (.str (ps ("AccountID"))) s
          if hasAcc then do
            let acc ← pySubscript s (.str (ps ("AccountID")))
            pure ({ m with fromguid := some acc }, parts0)
          else pure (m, parts0)
    else pure (m, parts0))
  let hasTime ← pyContains (.str (ps ("Time"))) mo
  let m ← (if hasTime then do
      let t ← pySubscript mo (.str (ps ("Time")))
      let lt ← pytzLocalize t
      pure { m with dateobj := some lt }
    else pure m)
  let hasMT ← pyContains (.str (ps ("MessageText"))) mo
  if hasMT then do
    let mt ← pySubscript mo (.str (ps ("MessageText")))
    let ns ← pySubscript mt (.str (ps ("NSString")))
    let m := { m with text := some ns }
    let hasAttrs ← pyContains (.str (ps ("NSAttributes"))) mt
    if hasAttrs then do
      let attrs ← pySubscript mt (.str (ps ("NSAttributes")))
      let hasFont ← pyContains (.str (ps ("NSFont"))) attrs
      let m ← (if hasFont then do
          let f ← pySubscript attrs (.str (ps ("NSFont")))
          let fn ← pySubscript f (.str (ps ("NSName")))
          let fs ← pySubscript f (.str (ps ("NSSize")))
          pure { m with textfont := some fn, textsize := some fs }
        else if pyIsList attrs then do
          let a0 ← pyIndex attrs 0
          let hasFont0 ← pyContains (.str (ps ("NSFont"))) a0
          if hasFont0 then do
            let f ← pySubscript a0 (.str (ps ("NSFont")))
            let fn ← pySubscript f (.str (ps ("NSName")))
            let fs ← pySubscript f (.str (ps ("NSSize")))
            pure { m with textfont := some fn, textsize := some fs }
          else pure m
        else pure m)
      let hasAtt ← pyContains (.str (ps ("NSAttachment"))) attrs
      if hasAtt then do
        let na ← pySubscript attrs (.str (ps ("NSAttachment")))
        let hasFW ← pyContains (.str (ps ("NSFileWrapper"))) na
        if hasFW then do
          let fw ← pySubscript na (.str (ps ("NSFileWrapper")))
          let m ← (if pyTruthy fw then do
              let fwd ← pySubscript fw (.str (ps ("NSFileWrapperData")))
              let d ← pySubscript fwd (.str (ps ("NS.data")))
              let isMagic ← has_rtfd_magic d
              if isMagic then do
                let bs ← (match d with
                  | .bytes bs => pure bs
                  | _ => throw PyErr.typeError)
                let out ← decode_rtfd bs
                let fname ← (match out.filename with
                  | some f => pure f
                  | Option.none => throw PyErr.keyError)
                let dat ← (match out.data with
                  | some dd => pure dd
                  | Option.none => throw PyErr.keyError)
                let ty ← determine_attachment_type (.bytes dat)
                let att : PyAttachment :=
                  { filename := out.filename, data := some (.bytes dat),
                    name := some (.str fname), mimeType := some ty,
                    contentId := some (md5Hexdigest dat) }
                pure { m with attachment := some att }
              else
                pure m
            else
              pure m)
          pure (m, parts, some true)
        else
          pure (m, parts, hasatt0)
      else
        pure (m, parts, hasatt0)
    else
      pure (m, parts, hasatt0)
  else
    pure (m, parts, hasatt0)

/-- One iteration of the bplist message loop (source lines 86–136):
messages whose class discriminator is not InstantMessage are skipped;
for the others the built message is appended and the participants /
has-attachments state updated. -/
def bplistMsgStep (c : Conversation) (mo : PyVal) : Except PyErr Conversation := do
  let cls ← pySubscript mo (.str (ps ("$class")))
  let cn ← pySubscript cls (.str (ps ("$classname")))
  if pyEq cn (.str (ps ("InstantMessage"))) then do
    let r ← bplistMessage c.participants c.hasattachments mo
    return { c with participants := r.2.1, hasattachments := r.2.2,
                    messages := c.messages ++ [r.1] }
  else
    return c

/-- The bplist message loop folded over the message objects. -/
def bplistMsgs (c : Conversation) : List PyVal → Except PyErr Conversation
  | [] => .ok c
  | mo :: rest => do
      let c2 ← bplistMsgStep c mo
      bplistMsgs c2 rest

/-- The conversation-level phase of bplist_to_conv (source lines 45–83):
root lookup, start/end times (UTC-localized), the AIM protocol
normalization, display names, presentity-derived user ids and the
optional total message count.  Returns the initialized conversation and
the root object. -/
def bplistMeta (base_obj : PyVal) : Except PyErr (Conversation × PyVal) := do
  let root_obj ← pySubscript base_obj (.str (ps ("root")))
  let meta ← pySubscript base_obj (.str (ps ("metadata")))
  let st ← pySubscript meta (.str (ps ("StartTime")))
  let stL ← pytzLocalize st
  let et ← pySubscript meta (.str (ps ("EndTime")))
  let etL ← pytzLocalize et
  let service ← pySubscript meta (.str (ps ("Service")))
  let protocol := if pyEq service (.str (ps ("AOL Instant Messenger")))
                  then PyVal.str (ps ("AIM")) else service
  let partsMeta ← pySubscript meta (.str (ps ("Participants")))
  let names1 ← (if pyIsStr partsMeta then do
      let s ← pyStripStr partsMeta
      pure [s]
    else pure [])
  let names2 ← (if pyIsList partsMeta then do
      let us ← pyIterate partsMeta
      us.mapM pyStripStr
    else pure [])
  let hasPres ← pyContains (.str (ps ("PresentityIDs"))) meta
  let userids ← (if hasPres then do
      let pids ← pySubscript meta (.str (ps ("PresentityIDs")))
      let us ← pyIterate pids
      us.foldlM (fun acc u => do
        let last ← pySplitLastStr 58 u
        pure (if acc.contains last then acc else acc ++ [last])) ([] : List PyStr)
    else pure [])
  let hasLMI ← pyContains (.str (ps ("LastMessageID"))) meta
  let tm ← (if hasLMI then
      (fun v => some v) <$> pySubscript meta (.str (ps ("LastMessageID")))
    else pure Option.none)
  let c0 : Conversation :=
    { participants := [], userids := userids, names := names1 ++ names2,
      messages := [], startobj := some stL, endobj := some etL,
      dateobj := some etL, protocol := some protocol,
      totalmessages := tm, hasattachments := Option.none }
  return (c0, root_obj)

/-- bplist_to_conv (src/bplist_decode.py lines 41–143) on the
ccl_bplist-deserialized object graph: conversation metadata, the message
loop over the third element of the root object, and the final
fewer-than-2-participants normalization. -/
def bplist_to_conv (base_obj : PyVal) : Except PyErr Conversation := do
  let (c0, root_obj) ← bplistMeta base_obj
  let msgsVal ← pyIndex root_obj 2
  let msgs ← pyIterate msgsVal
  let c1 ← bplistMsgs c0 msgs
  return { c1 with participants := padParticipants c1.participants }

/-! ## Archive Adapter B: parse_typedstream_chat (src/ichat_to_eml.py)

The source first unarchives the file with the external typedstream
library; the embedding starts from the resulting object tree and covers
lines 116–225.  Python's try/except does not roll back mutations made
before the exception, so the per-item processing is modelled in a
state-plus-optional-error style: every block returns the state as mutated
up to the failure point together with the pending exception, and the
except clauses filter the exception kinds they catch.  The source
re-evaluates some pure attribute chains (e.g. i.value.contents[1]
.value.value appears three times); the model evaluates each chain once,
which is observationally identical for these effect-free lookups.
-/

/-- Decimal digits of a natural number (fuel-driven, fuel is always
sufficient). -/
def natToDecAux : Nat → Nat → List Nat
  | 0, _ => []
  | f+1, n => if n < 10 then [48 + n] else natToDecAux f (n / 10) ++ [48 + n % 10]

/-- Python `str` of a natural number. -/
def natToDec (n : Nat) : List Nat := natToDecAux (n + 1) n

/-- Python `str` of an integer. -/
def intToDec (n : Int) : List Nat :=
  if n < 0 then 45 :: natToDec (-n).toNat else natToDec n.toNat

/-- The rgba(...) string of source lines 161–165 and 168–172, with the
separator that differs between the text-color and background-color
branches. -/
def rgbaStr (sep : List Nat) (r g b a : Int) : List Nat :=
  ps ("rgba(") ++ intToDec r ++ sep ++ intToDec g ++ sep ++ intToDec b ++ sep
    ++ intToDec a ++ ps (")")

/-- Read one color channel and scale it: the source computes
int(channel * 255).  The typedstream color channels are floats in [0,1];
the model carries them as integers (the numeric value never matters to
any claim, only the control flow of the branch), so the scaling is exact
integer multiplication; a non-numeric channel raises TypeError. -/
def pyColorChan (co : PyVal) (a : String) : Except PyErr Int := do
  let v ← pyGetattr co a
  match v with
  | .int n => pure (n * 255)
  | _ => throw PyErr.typeError

/-- Read the alpha channel, kept unscaled (source applies str directly). -/
def pyColorAlpha (co : PyVal) : Except PyErr Int := do
  let v ← pyGetattr co ("alpha")
  match v with
  | .int n => pure n
  | _ => throw PyErr.typeError

/-- The mutable state visible to one message's content-item loop: the
message dictionary under construction plus the two conversation-level
fields the loop mutates (participants and the has-attachments flag). -/
structure TsState where
  message : PyMessage
  participants : List PyVal
  hasattachments : Bool
  deriving Repr

/-- Propagate a pending exception, otherwise continue. -/
def tsThen (r : TsState × Option PyErr) (f : TsState → TsState × Option PyErr) :
    TsState × Option PyErr :=
  match r with
  | (st, some e) => (st, some e)
  | (st, Option.none) => f st

/-- An except clause: swallow the pending exception when its kind is
listed, keeping the state as mutated so far. -/
def tsCatch (kinds : List PyErr) (r : TsState × Option PyErr) : TsState × Option PyErr :=
  match r with
  | (st, some e) => if kinds.contains e then (st, Option.none) else (st, some e)
  | (st, Option.none) => (st, Option.none)

/-- First try block of the content-item loop (source lines 136–142): a
Presentity element contributes the sender and extends the participants
list; all reads precede the mutations. -/
def tsBlock1 (st : TsState) (i : PyVal) : TsState × Option PyErr :=
  match (do
      let v ← pyGetattr i ("value")
      let c ← pyGetattr v ("clazz")
      let n ← pyGetattr c ("name")
      let d ← pyDecodeUtf8 n
      if pyEq d (.str (ps ("Presentity"))) then do
        let cs ← pyGetattr v ("contents")
        let e1 ← pySubscript cs (.int 1)
        let w1 ← pyGetattr e1 ("value")
        let w2 ← pyGetattr w1 ("value")
        pure (some w2)
      else pure Option.none : Except PyErr (Option PyVal)) with
  | .error e => (st, some e)
  | .ok Option.none => (st, Option.none)
  | .ok (some w2) =>
      let parts2 := if st.participants.any (fun y => pyEq w2 y) then st.participants
                    else st.participants ++ [w2]
      ({ st with participants := parts2,
                 message := { st.message with sender := some w2 } }, Option.none)

/-- Second try block (source lines 143–147): a datetime-valued element
supplies the message timestamp. -/
def tsBlock2 (st : TsState) (i : PyVal) : TsState × Option PyErr :=
  match (do
      let v ← pyGetattr i ("value")
      pyGetattr v ("value")) with
  | .error e => (st, some e)
  | .ok w =>
      match w with
      | .dt t => ({ st with message := { st.message with dateobj := some t } }, Option.none)
      | _ => (st, Option.none)

/-- The NSFont arm of the attribute loop (source lines 153–157): the font
name is assigned before the size is read, so a failing size read leaves
the name set. -/
def tsSegFont (st : TsState) (kv : PyVal) (j : PyVal × PyVal) : TsState × Option PyErr :=
  if pyEq kv (.str (ps ("NSFont"))) then
    match pyGetattr j.2 ("name") with
    | .error e => (st, some e)
    | .ok fn =>
        let st := { st with message := { st.message with textfont := some fn } }
        match pyGetattr j.2 ("size") with
        | .error e => (st, some e)
        | .ok fs => ({ st with message := { st.message with textsize := some fs } }, Option.none)
  else (st, Option.none)

/-- The NSColor arm (source lines 158–165): all four channel reads precede
the single textcolor assignment. -/
def tsSegColor (st : TsState) (kv : PyVal) (j : PyVal × PyVal) : TsState × Option PyErr :=
  if pyEq kv (.str (ps ("NSColor"))) then
    match (do
        let co ← pyGetattr j.2 ("value")
        let r ← pyColorChan co ("red")
        let g ← pyColorChan co ("green")
        let b ← pyColorChan co ("blue")
        let a ← pyColorAlpha co
        pure (rgbaStr (ps (", ")) r g b a)) with
    | .error e => (st, some e)
    | .ok s => ({ st with message := { st.message with textcolor := some s } }, Option.none)
  else (st, Option.none)

/-- The NSBackgroundColor arm (source lines 166–172), identical to the
NSColor arm except for the target field and the comma separator. -/
def tsSegBg (st : TsState) (kv : PyVal) (j : PyVal × PyVal) : TsState × Option PyErr :=
  if pyEq kv (.str (ps ("NSBackgroundColor"))) then
    match (do
        let co ← pyGetattr j.2 ("value")
        let r ← pyColorChan co ("red")
        let g ← pyColorChan co ("green")
        let b ← pyColorChan co ("blue")
        let a ← pyColorAlpha co
        pure (rgbaStr (ps (",")) r g b a)) with
    | .error e => (st, some e)
    | .ok s => ({ st with message := { st.message with bgcolor := some s } }, Option.none)
  else (st, Option.none)

/-- The NSAttachment arm (source lines 173–188): the fixed levels of
indirection down to the raw byte buffer, the MIME detection, the rtfd
special case (decoded filename/data, re-resolved type) or the generic
attachment (placeholder name), the content id, and — only after all reads
succeeded — the attachment assignment together with the has-attachments
flag. -/
def tsSegAttach (st : TsState) (kv : PyVal) (j : PyVal × PyVal) : TsState × Option PyErr :=
  if pyEq kv (.str (ps ("NSAttachment"))) then
    match (do
        let c1 ← pyGetattr j.2 ("contents")
        let e0 ← pySubscript c1 (.int 0)
        let vs ← pyGetattr e0 ("values")
        let v1 ← pySubscript vs (.int 1)
        let c2 ← pyGetattr v1 ("contents")
        let e00 ← pySubscript c2 (.int 0)
        let ado ← pyGetattr e00 ("value")
        let d ← pyGetattr ado ("data")
        let ty ← determine_attachment_type d
        if ty = nsFileWrapperMime then do
          let bs ← (match d with
            | .bytes bs => pure bs
            | _ => throw PyErr.typeError)
          let out ← decode_rtfd bs
          let fname ← (match out.filename with
            | some f => pure f
            | Option.none => throw PyErr.keyError)
          let dat ← (match out.data with
            | some dd => pure dd
            | Option.none => throw PyErr.keyError)
          let ty2 ← determine_attachment_type (.bytes dat)
          let att : PyAttachment :=
            { filename := out.filename, data := some (PyVal.bytes dat),
              name := some (.str fname), mimeType := some ty2,
              contentId := some (md5Hexdigest dat) }
          pure att
        else do
          let bs ← (match d with
            | .bytes bs => pure bs
            | _ => throw PyErr.typeError)
          let att : PyAttachment :=
            { filename := Option.none, data := some d,
              name := some (.str (ps ("Unnamed Attachment"))), mimeType := some ty,
              contentId := some (md5Hexdigest bs) }
          pure att : Except PyErr PyAttachment) with
    | .error e => (st, some e)
    | .ok att =>
        ({ st with message := { st.message with attachment := some att },
                   hasattachments := true }, Option.none)
  else (st, Option.none)

/-- One attribute-dictionary entry of the styled-text loop (source lines
151–188): the key's value tag is read once, then the four independent
arms run in sequence. -/
def tsJStep (st : TsState) (j : PyVal × PyVal) : TsState × Option PyErr :=
  match pyGetattr j.1 ("value") with
  | .error e => (st, some e)
  | .ok kv =>
      tsThen (tsSegFont st kv j) (fun st2 =>
      tsThen (tsSegColor st2 kv j) (fun st3 =>
      tsThen (tsSegBg st3 kv j) (fun st4 =>
      tsSegAttach st4 kv j)))

/-- The attribute loop folded over the dictionary items; a pending
exception aborts the loop, keeping the mutations made so far. -/
def tsJFold (st : TsState) : List (PyVal × PyVal) → TsState × Option PyErr
  | [] => (st, Option.none)
  | j :: rest =>
      match tsJStep st j with
      | (st2, some e) => (st2, some e)
      | (st2, Option.none) => tsJFold st2 rest

/-- Third try block (source lines 148–194): an NSAttributedString element
supplies the message text (assigned before the attribute dictionary is
looked up) and the attribute loop. -/
def tsBlock3 (st : TsState) (i : PyVal) : TsState × Option PyErr :=
  match (do
      let v ← pyGetattr i ("value")
      let c ← pyGetattr v ("clazz")
      let n ← pyGetattr c ("name")
      let d ← pyDecodeUtf8 n
      if pyEq d (.str (ps ("NSAttributedString"))) then do
        let cs ← pyGetattr v ("contents")
        let e0 ← pySubscript cs (.int 0)
        let t1 ← pyGetattr e0 ("value")
        let t2 ← pyGetattr t1 ("value")
        pure (some (cs, t2))
      else pure Option.none : Except PyErr (Option (PyVal × PyVal))) with
  | .error e => (st, some e)
  | .ok Option.none => (st, Option.none)
  | .ok (some (cs, t2)) =>
      let st := { st with message := { st.message with text := some t2 } }
      match (do
          let e2 ← pySubscript cs (.int 2)
          let v2 ← pyGetattr e2 ("value")
          let c2 ← pyGetattr v2 ("contents")
          pyItems c2) with
      | .error e => (st, some e)
      | .ok js => tsJFold st js

/-- One content item of a message (source lines 135–194): the three try
blocks in sequence, the first two swallowing AttributeError, the third
swallowing AttributeError and IndexError; any other exception
propagates. -/
def tsProcessItem (st : TsState) (i : PyVal) : TsState × Option PyErr :=
  tsThen (tsCatch [.attributeError] (tsBlock1 st i)) (fun st2 =>
  tsThen (tsCatch [.attributeError] (tsBlock2 st2 i)) (fun st3 =>
  tsCatch [.attributeError, .indexError] (tsBlock3 st3 i)))

/-- The content-item loop of one message. -/
def tsItemsFold (st : TsState) : List PyVal → TsState × Option PyErr
  | [] => (st, Option.none)
  | i :: rest =>
      match tsProcessItem st i with
      | (st2, some e) => (st2, some e)
      | (st2, Option.none) => tsItemsFold st2 rest

/-- One iteration of the message loop (source lines 131–197): non
InstantMessage objects are skipped; for the others the items are
processed from a fresh message dictionary and the built message is
appended unconditionally afterwards (the message dictionary is reset for
the next iteration). -/
def tsMsgStep (c : Conversation) (mo : PyVal) : Except PyErr Conversation := do
  let cls ← pyGetattr mo ("clazz")
  let n ← pyGetattr cls ("name")
  let d ← pyDecodeUtf8 n
  if pyEq d (.str (ps ("InstantMessage"))) then do
    let csv ← pyGetattr mo ("contents")
    let items ← pyIterate csv
    let st0 : TsState := { message := {}, participants := c.participants,
                           hasattachments := c.hasattachments.getD false }
    match tsItemsFold st0 items with
    | (_, some e) => throw e
    | (st, Option.none) =>
        return { c with participants := st.participants,
                        hasattachments := some st.hasattachments,
                        messages := c.messages ++ [st.message] }
  else
    return c

/-- The message loop folded over the archive's message objects. -/
def tsMsgsFold (c : Conversation) : List PyVal → Except PyErr Conversation
  | [] => .ok c
  | mo :: rest => do
      let c2 ← tsMsgStep c mo
      tsMsgsFold c2 rest

/-- The innermost loop of the stray-presentity scan (source lines
207–210): candidate identifiers are appended when not already among the
participants and not a substring of the protocol string; the two
membership tests short-circuit as in the source. -/
def tsL3Fold (protocol : PyVal) (parts : List PyVal) : List PyVal → List PyVal × Option PyErr
  | [] => (parts, Option.none)
  | l3 :: rest =>
      match (do
          let v1 ← pyGetattr l3 ("value")
          pyGetattr v1 ("value")) with
      | .error e => (parts, some e)
      | .ok v2 =>
          if parts.any (fun y => pyEq v2 y) then tsL3Fold protocol parts rest
          else
            match pyContains v2 protocol with
            | .error e => (parts, some e)
            | .ok inProto =>
                if inProto then tsL3Fold protocol parts rest
                else tsL3Fold protocol (parts ++ [v2]) rest

/-- One element of a stray container (source lines 204–212): the inner
try block checks the Presentity tag and runs the l3 loop, swallowing
AttributeError. -/
def tsL2Step (protocol : PyVal) (parts : List PyVal) (l2 : PyVal) : List PyVal × Option PyErr :=
  let r :=
    match (do
        let c ← pyGetattr l2 ("clazz")
        let n ← pyGetattr c ("name")
        let d ← pyDecodeUtf8 n
        if pyEq d (.str (ps ("Presentity"))) then do
          let cs ← pyGetattr l2 ("contents")
          let l3s ← pyIterate cs
          pure (some l3s)
        else pure Option.none : Except PyErr (Option (List PyVal))) with
    | .error e => (parts, some e)
    | .ok Option.none => (parts, Option.none)
    | .ok (some l3s) => tsL3Fold protocol parts l3s
  match r with
  | (p, some PyErr.attributeError) => (p, Option.none)
  | other => other

/-- The l2 loop over one stray container's elements. -/
def tsL2Fold (protocol : PyVal) (parts : List PyVal) : List PyVal → List PyVal × Option PyErr
  | [] => (parts, Option.none)
  | l2 :: rest =>
      match tsL2Step protocol parts l2 with
      | (p, some e) => (p, some e)
      | (p, Option.none) => tsL2Fold protocol p rest

/-- One stray top-level element (source lines 200–214): the outer try
block reads its elements attribute and runs the l2 loop, swallowing
AttributeError. -/
def tsL1Step (protocol : PyVal) (parts : List PyVal) (l1 : PyVal) : List PyVal × Option PyErr :=
  let r :=
    match pyGetattr l1 ("elements") with
    | .error e => (parts, some e)
    | .ok els =>
        match pyIterate els with
        | .error e => (parts, some e)
        | .ok l2s => tsL2Fold protocol parts l2s
  match r with
  | (p, some PyErr.attributeError) => (p, Option.none)
  | other => other

/-- The loop over the top-level elements from index 2 onward. -/
def tsL1Fold (protocol : PyVal) (parts : List PyVal) : List PyVal → List PyVal × Option PyErr
  | [] => (parts, Option.none)
  | l1 :: rest =>
      match tsL1Step protocol parts l1 with
      | (p, some e) => (p, some e)
      | (p, Option.none) => tsL1Fold protocol p rest

/-- parse_typedstream_chat (src/ichat_to_eml.py lines 116–225) on the
typedstream object tree: protocol from element 0, the message loop over
element 2, the stray-presentity scan over elements 2 onward, the
conversation timestamp taken from the last message, and the
fewer-than-2-participants normalization. -/
def parse_typedstream_chat (tschat : PyVal) : Except PyErr Conversation := do
  let els ← pyGetattr tschat ("elements")
  let e0 ← pySubscript els (.int 0)
  let protocol ← pyGetattr e0 ("value")
  let e2 ← pySubscript els (.int 2)
  let e2els ← pyGetattr e2 ("elements")
  let msgObjs ← pyIterate e2els
  let c0 : Conversation := { participants := [], messages := [],
                             protocol := some protocol, hasattachments := some false }
  let c1 ← tsMsgsFold c0 msgObjs
  let tail2 ← (match els with
    | .list xs => pure (xs.drop 2)
    | _ => throw PyErr.typeError)
  let r2 := tsL1Fold protocol c1.participants tail2
  match r2 with
  | (_, some e) => throw e
  | (parts2, Option.none) =>
      let c2 := { c1 with participants := parts2 }
      match c2.messages.getLast? with
      | Option.none => throw PyErr.indexError
      | some lastMsg =>
          match lastMsg.dateobj with
          | Option.none => throw PyErr.keyError
          | some dtv =>
              let c3 := { c2 with dateobj := some dtv }
              return { c3 with participants := padParticipants c3.participants }

/-! ## Concrete object graphs used by the adapter claims -/

/-- A typedstream Presentity content item carrying an identifier. -/
def tsPresItem (who : String) : PyVal :=
  .obj [("value", .obj [
     ("clazz", .obj [("name", .bytes (ps ("Presentity")))]),
     ("contents", .list [.none, .obj [("value", .obj [("value", .str (ps who))])]])])]

/-- A typedstream datetime content item. -/
def tsDateItem (t : Int) : PyVal := .obj [("value", .obj [("value", .dt t)])]

/-- A typedstream NSAttributedString content item with an attribute
dictionary. -/
def tsTextItemA (txt : String) (attrs : List (PyVal × PyVal)) : PyVal :=
  .obj [("value", .obj [
     ("clazz", .obj [("name", .bytes (ps ("NSAttributedString")))]),
     ("contents", .list [.obj [("value", .obj [("value", .str (ps txt))])], .none,
        .obj [("value", .obj [("contents", .dict attrs)])]])])]

/-- A typedstream NSAttributedString content item without styling. -/
def tsTextItem (txt : String) : PyVal := tsTextItemA txt []

/-- A typedstream InstantMessage object. -/
def tsIM (items : List PyVal) : PyVal :=
  .obj [("clazz", .obj [("name", .bytes (ps ("InstantMessage")))]), ("contents", .list items)]

/-- A Presentity content item whose second contents element lacks the
inner value attribute: traversing it raises AttributeError at a deeper
structural level. -/
def tsBadItem : PyVal :=
  .obj [("value", .obj [
     ("clazz", .obj [("name", .bytes (ps ("Presentity")))]),
     ("contents", .list [.none, .obj [("value", .obj [])]])])]

/-- A three-message typedstream archive whose middle message consists of
the single malformed content item. -/
def c1Tschat : PyVal :=
  .obj [("elements", .list [
     .obj [("value", .str (ps ("AIM")))],
     .str [],
     .obj [("elements", .list [
        tsIM [tsPresItem ("alice"), tsDateItem 100, tsTextItem ("one")],
        tsIM [tsBadItem],
        tsIM [tsPresItem ("bob"), tsDateItem 300, tsTextItem ("three")]])]])]

/-- An NSAttachment attribute value leading, through the fixed levels of
indirection of source lines 175–176, to the given raw bytes. -/
def tsAttachVal (payload : List Nat) : PyVal :=
  .obj [("contents", .list [
     .obj [("values", .list [.none,
        .obj [("contents", .list [
           .obj [("value", .obj [("data", .bytes payload)])]])]])]])]

/-- An attribute-dictionary key object with the given tag string. -/
def tsKey (tag : String) : PyVal := .obj [("value", .str (ps tag))]

/-- A one-message typedstream archive whose message carries a non-rtfd
byte attachment. -/
def c7bTschat : PyVal :=
  .obj [("elements", .list [
     .obj [("value", .str (ps ("AIM")))],
     .str [],
     .obj [("elements", .list [
        tsIM [tsPresItem ("alice"), tsDateItem 100,
          tsTextItemA ("one") [(tsKey ("NSAttachment"), tsAttachVal (ps ("payload")))]]])]])]

/-- A bplist metadata dictionary whose service is AOL Instant Messenger. -/
def bplistMetaAim : List (PyVal × PyVal) :=
  [(.str (ps ("StartTime")), .dt 100),
   (.str (ps ("EndTime")), .dt 200),
   (.str (ps ("Service")), .str (ps ("AOL Instant Messenger"))),
   (.str (ps ("Participants")), .str (ps (" Bob ")))]

/-- A bplist metadata dictionary with a pass-through service name. -/
def bplistMetaPlain : List (PyVal × PyVal) :=
  [(.str (ps ("StartTime")), .dt 100),
   (.str (ps ("EndTime")), .dt 200),
   (.str (ps ("Service")), .str (ps ("iChat"))),
   (.str (ps ("Participants")), .str (ps (" Bob ")))]

/-- A bplist graph with no messages at all: zero participants are
discovered. -/
def c4Base : PyVal :=
  .dict [(.str (ps ("root")), .list [.none, .none, .list []]),
         (.str (ps ("metadata")), .dict bplistMetaPlain)]

/-- A bplist InstantMessage whose attachment wrapper is present but null. -/
def c7Msg : PyVal :=
  .dict [(.str (ps ("$class")), .dict [(.str (ps ("$classname")), .str (ps ("InstantMessage")))]),
         (.str (ps ("Time")), .dt 150),
         (.str (ps ("MessageText")), .dict
            [(.str (ps ("NSString")), .str (ps ("hi"))),
             (.str (ps ("NSAttributes")), .dict
                [(.str (ps ("NSAttachment")), .dict
                    [(.str (ps ("NSFileWrapper")), .none)])])])]

/-- A bplist graph whose single message has the null attachment wrapper. -/
def c7Base : PyVal :=
  .dict [(.str (ps ("root")), .list [.none, .none, .list [c7Msg]]),
         (.str (ps ("metadata")), .dict bplistMetaAim)]

/-- The conversation produced from c1Tschat: three messages in archive
order, the middle one an empty dictionary. -/
def c1Conv : Conversation :=
  { participants := [.str (ps ("alice")), .str (ps ("bob"))],
    messages := [
      { sender := some (.str (ps ("alice"))), dateobj := some 100,
        text := some (.str (ps ("one"))) },
      {},
      { sender := some (.str (ps ("bob"))), dateobj := some 300,
        text := some (.str (ps ("three"))) }],
    dateobj := some 300,
    protocol := some (.str (ps ("AIM"))), hasattachments := some false }

/-- The conversation produced from c7bTschat: its single message carries
the generic byte attachment. -/
def c7bConv : Conversation :=
  { participants := [.str (ps ("alice")), .str (ps ("UNKNOWN"))],
    messages := [
      { sender := some (.str (ps ("alice"))), dateobj := some 100,
        text := some (.str (ps ("one"))),
        attachment := some
          { filename := Option.none, data := some (.bytes (ps ("payload"))),
            name := some (.str (ps ("Unnamed Attachment"))),
            mimeType := some (ps ("application/octet-stream")),
            contentId := some (ps ("payload")) } }],
    dateobj := some 100,
    protocol := some (.str (ps ("AIM"))), hasattachments := some true }

/-- The conversation produced from c4Base: the single UNKNOWN sentinel is
the only participant. -/
def c4Conv : Conversation :=
  { participants := [.str (ps ("UNKNOWN"))], names := [ps ("Bob")], messages := [],
    startobj := some 100, endobj := some 200, dateobj := some 200,
    protocol := some (.str (ps ("iChat"))) }

/-- The conversation produced from c7Base: the has-attachments flag is set
although its single message carries no attachment. -/
def c7Conv : Conversation :=
  { participants := [.str (ps ("UNKNOWN"))], names := [ps ("Bob")],
    messages := [{ dateobj := some 150, text := some (.str (ps ("hi"))) }],
    startobj := some 100, endobj := some 200, dateobj := some 200,
    protocol := some (.str (ps ("AIM"))), hasattachments := some true }

/-- Relation between the item-loop states before and after a processing
step: either the attachment and flag are untouched, or an attachment is
present and the flag was set together with it. -/
def AttStep (a b : TsState) : Prop :=
  (b.message.attachment = a.message.attachment ∧ b.hasattachments = a.hasattachments) ∨
  (b.message.attachment.isSome = true ∧ b.hasattachments = true)

/-- A container buffer that is truncated right after its 16-byte header:
the first name-length read of the name table overruns. -/
def c6NamesTrunc : List Nat := rtfdMagic ++ le32 0 ++ le32 3 ++ le32 1

/-- A container buffer that ends right after its one-entry name table:
the size-table read overruns. -/
def c6SizesTrunc : List Nat := c6NamesTrunc ++ le32 1 ++ ps ("A")

/-- A container buffer whose size table declares 5 content bytes that are
not there: the content-table read overruns. -/
def c6ContentsTrunc : List Nat := c6SizesTrunc ++ le32 5

/-- A container buffer whose only part has a 6-byte content block too
short for its own inner header: the inner declared-size read overruns. -/
def c6InnerTrunc : List Nat := c6SizesTrunc ++ le32 6 ++ le32 1 ++ [99, 0]

/-! ## Supporting lemmas -/

theorem ebind_ok {α β : Type} (a : α) (f : α → Except PyErr β) :
    (Except.ok a >>= f) = f a := rfl

theorem ebind_err {α β : Type} (e : PyErr) (f : α → Except PyErr β) :
    ((Except.error e : Except PyErr α) >>= f) = .error e := rfl

theorem pyBound_le (len : Nat) (i : Int) : pyBound len i ≤ len := by
  unfold pyBound
  split
  · omega
  · exact min_le_right _ _

theorem pyslice_length (data : List Nat) (a b : Int) :
    (pyslice data a b).length = pyBound data.length b - pyBound data.length a := by
  simp [pyslice, List.length_take,
    Nat.min_eq_left (pyBound_le data.length b)]

theorem unpackI32_length_ne (l : List Nat) (h : l.length ≠ 4) :
    unpackI32 l = .error .structError := by
  unfold unpackI32
  split
  · simp_all
  · rfl

theorem unpackI32_ok_of_length (l : List Nat) (h : l.length = 4) :
    ∃ v, unpackI32 l = .ok v := by
  rcases l with _ | ⟨a, _ | ⟨b, _ | ⟨c, _ | ⟨d, _ | t⟩⟩⟩⟩ <;> simp_all [unpackI32]

theorem readI32_oob (data : List Nat) (off : Int) (h0 : 0 ≤ off)
    (h : (data.length : Int) < off + 4) : readI32 data off = .error .structError := by
  apply unpackI32_length_ne
  rw [pyslice_length]
  unfold pyBound
  split
  · omega
  · split
    · omega
    · omega

theorem readI32_ok (data : List Nat) (off : Int) (h0 : 0 ≤ off)
    (h : off + 4 ≤ (data.length : Int)) : ∃ v, readI32 data off = .ok v := by
  apply unpackI32_ok_of_length
  rw [pyslice_length]
  unfold pyBound
  split
  · omega
  · split
    · omega
    · omega

/-! ## Claim theorems for the container decoder -/

/-- C10: on every bytes input — short and empty ones included — the magic
predicate has_rtfd_magic never raises and returns true exactly when the
first four bytes are b'rtfd'; every non-bytes input raises TypeError. -/
theorem c10_magic_predicate :
    (∀ bs : List Nat, has_rtfd_magic (.bytes bs) = .ok (hasRtfdMagicB bs)
      ∧ (hasRtfdMagicB bs = true ↔ bs.take 4 = rtfdMagic))
  ∧ (∀ v : PyVal, (∀ bs, v ≠ .bytes bs) → has_rtfd_magic v = .error .typeError) := by
  constructor
  · intro bs
    exact ⟨rfl, by simp [hasRtfdMagicB]⟩
  · intro v hv
    cases v <;> first | rfl | exact absurd rfl (hv _)

/-- Witness for C10 at the concrete non-bytes input given by a Python
string. -/
theorem c10_magic_predicate_witness :
    has_rtfd_magic (PyVal.str (ps ("x"))) = .error .typeError :=
  c10_magic_predicate.2 _ (fun _ h => PyVal.noConfusion h)

/-- Claim C2, counterexample: the spec's own end-to-end example buffer —
whose part named `.` has an inner header declaring content size 5 followed
by 8 content bytes — does not decode to note.txt/hello; struct.unpack
requires the remaining slice to be exactly the declared size, so
decode_rtfd fails with struct.error instead of trimming the content. -/
theorem c2_spec_example_fails :
    decode_rtfd rtfdExampleSpec = .error .structError ∧
    decode_rtfd rtfdExampleSpec ≠ .ok ⟨some (ps ("note.txt")), some (ps ("hello"))⟩ := by
  have h1 : decode_rtfd rtfdExampleSpec = .error .structError := rfl
  refine ⟨h1, ?_⟩
  intro h
  rw [h1] at h
  exact Except.noConfusion h

/-- Claim C2, amended: whenever a part's content block decodes, the
extracted file bytes are exactly the content_size-byte slice beginning at
the computed start offset (and the block must end exactly there — no
trailing padding is trimmed); the spec's two-part example decodes to
filename note.txt and data hello once the `.` part carries exactly its 5
declared content bytes. -/
theorem c2_file_bytes_slice :
    (∀ (cb fb : List Nat), parseContent cb = .ok fb →
        ∃ size start, contentGeometry cb = .ok (size, start) ∧
          fb = pysliceFrom cb start ∧ (fb.length : Int) = size)
  ∧ decode_rtfd rtfdExampleExact = .ok ⟨some (ps ("note.txt")), some (ps ("hello"))⟩ := by
  constructor
  · intro cb fb h
    unfold parseContent at h
    cases hg : contentGeometry cb with
    | error e => rw [hg, ebind_err] at h; exact Except.noConfusion h
    | ok pr =>
      obtain ⟨size, start⟩ := pr
      rw [hg, ebind_ok] at h
      unfold unpackCBytes at h
      dsimp only at h
      split_ifs at h with hneg hlen
      all_goals
        first
          | exact Except.noConfusion h
          | exact ⟨size, start, rfl, (Except.ok.inj h).symm, (Except.ok.inj h) ▸ hlen⟩
  · rfl

/-- Witness for claim C2 at the standard-layout block carrying b'hello'. -/
theorem c2_file_bytes_slice_witness :
    ∃ size start, contentGeometry stdLayoutBlock = .ok (size, start) ∧
      (ps ("hello")) = pysliceFrom stdLayoutBlock start ∧
      (((ps ("hello")) : List Nat).length : Int) = size :=
  c2_file_bytes_slice.1 stdLayoutBlock (ps ("hello")) rfl

/-- Claim C3: a part's content block is parsed with the extended layout
exactly when the declared content-size field (inner bytes 4–7) equals the
sentinel -2147483648 — true size then comes from inner bytes 8–11, a
padding length from inner bytes 12–15, and the content start offset is
padding + 16 — and with the standard layout (start 8, declared size)
otherwise; the two concrete blocks carrying b'hello' under each layout
extract identical logical content. -/
theorem c3_layout_selection :
    (∀ (cb : List Nat) (h : Int), unpackI32 (pyslice cb 0 4) = .ok h →
        unpackI32 (pyslice cb 4 8) = .ok (-2147483648) →
        contentGeometry cb = (do
          let size ← unpackI32 (pyslice cb 8 12)
          let pad ← unpackI32 (pyslice cb 12 16)
          return (size, pad + 16)))
  ∧ (∀ (cb : List Nat) (h s : Int), unpackI32 (pyslice cb 0 4) = .ok h →
        unpackI32 (pyslice cb 4 8) = .ok s → s ≠ -2147483648 →
        contentGeometry cb = .ok (s, 8))
  ∧ parseContent stdLayoutBlock = .ok (ps ("hello"))
  ∧ parseContent extLayoutBlock = .ok (ps ("hello")) := by
  refine ⟨?_, ?_, rfl, rfl⟩
  · intro cb h h0 h4
    unfold contentGeometry
    rw [h0, ebind_ok, h4, ebind_ok]
    simp
  · intro cb h s h0 h4 hs
    unfold contentGeometry
    rw [h0, ebind_ok, h4, ebind_ok]
    simp only [hs, if_false]
    rfl

/-- Witness for claim C3: the extended-layout block with padding 2 starts
its 5 content bytes at offset 18 = 16 + 2; the standard-layout block
starts its 5 content bytes at offset 8. -/
theorem c3_layout_selection_witness :
    contentGeometry extLayoutBlock = .ok (5, 18) ∧ contentGeometry stdLayoutBlock = .ok (5, 8) :=
  ⟨(c3_layout_selection.1 extLayoutBlock 1 rfl rfl).trans (by rfl),
   (c3_layout_selection.2.1 stdLayoutBlock 1 5 rfl rfl (by decide)).trans (by rfl)⟩

set_option maxRecDepth 40000 in
/-- Claim C5: both resolution scans of decode_rtfd pick whichever
sentinel-named part appears first in container order (stated as equality
with the find-first formulations written from the spec), and the two
four-part containers with the sentinel pairs in opposite orders resolve
filename and data from the respectively earlier part. -/
theorem c5_resolution_order :
    (∀ parts, resolveFilename parts = filenameResolutionSpec parts)
  ∧ (∀ parts, resolveData parts = dataResolutionSpec parts)
  ∧ decode_rtfd rtfdOrderBufA = .ok ⟨some (ps ("a.txt")), some (ps ("dotdata"))⟩
  ∧ decode_rtfd rtfdOrderBufB = .ok ⟨some (ps ("b.txt")), some (ps ("dotdotdata"))⟩ := by
  refine ⟨?_, ?_, rfl, rfl⟩
  · intro parts
    induction parts with
    | nil => rfl
    | cons p rest ih =>
      by_cases h1 : p.name = utf8NameSentinel
      · simp [resolveFilename, filenameResolutionSpec, List.find?, h1]
      · by_cases h2 : p.name = plainNameSentinel
        · simp [resolveFilename, filenameResolutionSpec, List.find?, h1, h2]
        · simp [resolveFilename, filenameResolutionSpec, List.find?, h1, h2, ih]
  · intro parts
    induction parts with
    | nil => rfl
    | cons p rest ih =>
      by_cases h1 : p.name = ps ("..")
      · simp [resolveData, dataResolutionSpec, List.find?, h1]
      · by_cases h2 : p.name = ps (".")
        · simp [resolveData, dataResolutionSpec, List.find?, h1, h2]
        · simp [resolveData, dataResolutionSpec, List.find?, h1, h2, ih]


theorem except_bind_eq_ok {α β : Type} {x : Except PyErr α} {f : α → Except PyErr β} {b : β} :
    (x >>= f) = .ok b ↔ ∃ a, x = .ok a ∧ f a = .ok b := by
  cases x with
  | error e => simp [ebind_err]
  | ok a => simp [ebind_ok]

theorem except_pure_eq_ok {α : Type} {a b : α} :
    (pure a : Except PyErr α) = .ok b ↔ a = b := by
  constructor
  · intro h; exact Except.ok.inj h
  · intro h; rw [h]; rfl

theorem pyEq_str (a b : List Nat) : pyEq (.str a) (.str b) = (a == b) := rfl

theorem bplistMsgStep_pres {c : Conversation} {mo : PyVal} {c2 : Conversation}
    (h : bplistMsgStep c mo = .ok c2) :
    c2.protocol = c.protocol ∧ c2.dateobj = c.dateobj ∧ c2.endobj = c.endobj ∧
    c2.startobj = c.startobj := by
  unfold bplistMsgStep at h
  obtain ⟨cls, hcls, h⟩ := except_bind_eq_ok.mp h
  obtain ⟨cn, hcn, h⟩ := except_bind_eq_ok.mp h
  split at h
  · obtain ⟨r, hr, h⟩ := except_bind_eq_ok.mp h
    rw [except_pure_eq_ok] at h
    subst h
    simp
  · rw [except_pure_eq_ok] at h
    subst h
    simp

theorem bplistMsgs_pres : ∀ (l : List PyVal) (c c2 : Conversation),
    bplistMsgs c l = .ok c2 →
    c2.protocol = c.protocol ∧ c2.dateobj = c.dateobj ∧ c2.endobj = c.endobj ∧
    c2.startobj = c.startobj := by
  intro l
  induction l with
  | nil =>
      intro c c2 h
      cases h
      exact ⟨rfl, rfl, rfl, rfl⟩
  | cons mo rest ih =>
      intro c c2 h
      unfold bplistMsgs at h
      obtain ⟨cmid, hmid, h⟩ := except_bind_eq_ok.mp h
      obtain ⟨h1, h2, h3, h4⟩ := bplistMsgStep_pres hmid
      obtain ⟨g1, g2, g3, g4⟩ := ih cmid c2 h
      exact ⟨g1.trans h1, g2.trans h2, g3.trans h3, g4.trans h4⟩

theorem bplistMeta_fields {base : PyVal} {c0 : Conversation} {r : PyVal}
    (h : bplistMeta base = .ok (c0, r)) :
    c0.dateobj = c0.endobj ∧ (∃ t, c0.endobj = some t) ∧
    ∀ m s, pySubscript base (.str (ps ("metadata"))) = .ok m →
           pySubscript m (.str (ps ("Service"))) = .ok s →
           c0.protocol = some (if pyEq s (.str (ps ("AOL Instant Messenger")))
                               then PyVal.str (ps ("AIM")) else s) := by
  unfold bplistMeta at h
  obtain ⟨root, hroot, h⟩ := except_bind_eq_ok.mp h
  obtain ⟨meta, hmeta, h⟩ := except_bind_eq_ok.mp h
  obtain ⟨st, hst, h⟩ := except_bind_eq_ok.mp h
  obtain ⟨stL, hstL, h⟩ := except_bind_eq_ok.mp h
  obtain ⟨et, het, h⟩ := except_bind_eq_ok.mp h
  obtain ⟨etL, hetL, h⟩ := except_bind_eq_ok.mp h
  obtain ⟨service, hserv, h⟩ := except_bind_eq_ok.mp h
  obtain ⟨partsMeta, hpm, h⟩ := except_bind_eq_ok.mp h
  obtain ⟨names1, hn1, h⟩ := except_bind_eq_ok.mp h
  obtain ⟨names2, hn2, h⟩ := except_bind_eq_ok.mp h
  obtain ⟨hasPres, hhp, h⟩ := except_bind_eq_ok.mp h
  obtain ⟨userids, hu, h⟩ := except_bind_eq_ok.mp h
  obtain ⟨hasLMI, hlmi, h⟩ := except_bind_eq_ok.mp h
  obtain ⟨tm, htm, h⟩ := except_bind_eq_ok.mp h
  rw [except_pure_eq_ok] at h
  injection h with h1 h2
  subst h1
  refine ⟨rfl, ⟨etL, rfl⟩, ?_⟩
  intro m s hm hs
  have hm2 : meta = m := Except.ok.inj (hmeta.symm.trans hm)
  subst hm2
  have hs2 : service = s := Except.ok.inj (hserv.symm.trans hs)
  subst hs2
  rfl

theorem attStep_rfl (a : TsState) : AttStep a a := Or.inl ⟨rfl, rfl⟩

theorem attStep_trans {a b c : TsState} (h1 : AttStep a b) (h2 : AttStep b c) : AttStep a c := by
  rcases h2 with ⟨g1, g2⟩ | ⟨g1, g2⟩
  · rcases h1 with ⟨f1, f2⟩ | ⟨f1, f2⟩
    · exact Or.inl ⟨g1.trans f1, g2.trans f2⟩
    · exact Or.inr ⟨g1 ▸ f1, g2 ▸ f2⟩
  · exact Or.inr ⟨g1, g2⟩

theorem tsBlock1_att (st : TsState) (i : PyVal) : AttStep st (tsBlock1 st i).1 := by
  unfold tsBlock1
  repeat' split
  all_goals exact Or.inl ⟨rfl, rfl⟩

theorem tsBlock2_att (st : TsState) (i : PyVal) : AttStep st (tsBlock2 st i).1 := by
  unfold tsBlock2
  repeat' split
  all_goals exact Or.inl ⟨rfl, rfl⟩

theorem tsSegFont_att (st : TsState) (kv : PyVal) (j : PyVal × PyVal) :
    AttStep st (tsSegFont st kv j).1 := by
  unfold tsSegFont
  repeat' split
  all_goals exact Or.inl ⟨rfl, rfl⟩

theorem tsSegColor_att (st : TsState) (kv : PyVal) (j : PyVal × PyVal) :
    AttStep st (tsSegColor st kv j).1 := by
  unfold tsSegColor
  repeat' split
  all_goals exact Or.inl ⟨rfl, rfl⟩

theorem tsSegBg_att (st : TsState) (kv : PyVal) (j : PyVal × PyVal) :
    AttStep st (tsSegBg st kv j).1 := by
  unfold tsSegBg
  repeat' split
  all_goals exact Or.inl ⟨rfl, rfl⟩

theorem tsSegAttach_att (st : TsState) (kv : PyVal) (j : PyVal × PyVal) :
    AttStep st (tsSegAttach st kv j).1 := by
  unfold tsSegAttach
  repeat' split
  all_goals first
    | exact Or.inl ⟨rfl, rfl⟩
    | exact Or.inr ⟨rfl, rfl⟩

theorem tsThen_att {st : TsState} {r : TsState × Option PyErr} {f : TsState → TsState × Option PyErr}
    (h1 : AttStep st r.1) (h2 : ∀ s, AttStep s (f s).1) : AttStep st (tsThen r f).1 := by
  rcases r with ⟨s0, e0⟩
  cases e0 with
  | none => exact attStep_trans h1 (h2 s0)
  | some e => exact h1

theorem tsCatch_fst (kinds : List PyErr) (r : TsState × Option PyErr) :
    (tsCatch kinds r).1 = r.1 := by
  rcases r with ⟨s, e⟩
  cases e with
  | none => rfl
  | some e2 =>
      simp only [tsCatch]
      split <;> rfl

theorem tsJStep_att (st : TsState) (j : PyVal × PyVal) : AttStep st (tsJStep st j).1 := by
  unfold tsJStep
  split
  · exact attStep_rfl st
  · exact tsThen_att (tsSegFont_att _ _ _) (fun s2 =>
      tsThen_att (tsSegColor_att _ _ _) (fun s3 =>
      tsThen_att (tsSegBg_att _ _ _) (fun s4 => tsSegAttach_att _ _ _)))

theorem tsJFold_att : ∀ (js : List (PyVal × PyVal)) (st : TsState), AttStep st (tsJFold st js).1 := by
  intro js
  induction js with
  | nil => intro st; exact attStep_rfl st
  | cons j rest ih =>
      intro st
      unfold tsJFold
      rcases hj : tsJStep st j with ⟨st2, e2⟩
      have hstep : AttStep st st2 := by
        have h2 := tsJStep_att st j
        rw [hj] at h2
        exact h2
      cases e2 with
      | some e => exact hstep
      | none => exact attStep_trans hstep (ih st2)

theorem tsBlock3_att (st : TsState) (i : PyVal) : AttStep st (tsBlock3 st i).1 := by
  unfold tsBlock3
  split
  · exact attStep_rfl st
  · exact attStep_rfl st
  · split
    · exact Or.inl ⟨rfl, rfl⟩
    · exact attStep_trans (Or.inl ⟨rfl, rfl⟩) (tsJFold_att _ _)

theorem tsProcessItem_att (st : TsState) (i : PyVal) : AttStep st (tsProcessItem st i).1 := by
  unfold tsProcessItem
  apply tsThen_att
  · rw [tsCatch_fst]
    exact tsBlock1_att st i
  · intro s2
    apply tsThen_att
    · rw [tsCatch_fst]
      exact tsBlock2_att s2 i
    · intro s3
      rw [tsCatch_fst]
      exact tsBlock3_att s3 i

theorem tsItemsFold_att : ∀ (items : List PyVal) (st : TsState),
    AttStep st (tsItemsFold st items).1 := by
  intro items
  induction items with
  | nil => intro st; exact attStep_rfl st
  | cons i rest ih =>
      intro st
      unfold tsItemsFold
      rcases hi : tsProcessItem st i with ⟨st2, e2⟩
      have hstep : AttStep st st2 := by
        have h2 := tsProcessItem_att st i
        rw [hi] at h2
        exact h2
      cases e2 with
      | some e => exact hstep
      | none => exact attStep_trans hstep (ih st2)

theorem attStep_inv (h0 : Bool) {a b : TsState}
    (ha : a.hasattachments = (h0 || a.message.attachment.isSome))
    (hab : AttStep a b) :
    b.hasattachments = (h0 || b.message.attachment.isSome) := by
  rcases hab with ⟨f1, f2⟩ | ⟨f1, f2⟩
  · rw [f2, ha, f1]
  · rw [f2, f1, Bool.or_true]

theorem tsMsgStep_cinv {c : Conversation} {mo : PyVal} {c2 : Conversation}
    (h : tsMsgStep c mo = .ok c2)
    (hc : c.hasattachments = some (c.messages.any (fun m => m.attachment.isSome))) :
    c2.hasattachments = some (c2.messages.any (fun m => m.attachment.isSome)) := by
  unfold tsMsgStep at h
  obtain ⟨cls, hcls, h⟩ := except_bind_eq_ok.mp h
  obtain ⟨n, hn, h⟩ := except_bind_eq_ok.mp h
  obtain ⟨d, hd, h⟩ := except_bind_eq_ok.mp h
  split at h
  · obtain ⟨csv, hcsv, h⟩ := except_bind_eq_ok.mp h
    obtain ⟨items, hitems, h⟩ := except_bind_eq_ok.mp h
    dsimp only at h
    rcases hI : tsItemsFold
        { message := {}, participants := c.participants,
          hasattachments := c.hasattachments.getD false } items with ⟨stf, ef⟩
    rw [hI] at h
    cases ef with
    | some e =>
        dsimp only at h
        exact Except.noConfusion h
    | none =>
        dsimp only at h
        rw [except_pure_eq_ok] at h
        subst h
        have hA : AttStep
            { message := {}, participants := c.participants,
              hasattachments := c.hasattachments.getD false } stf := by
          have h2 := tsItemsFold_att items
            { message := {}, participants := c.participants,
              hasattachments := c.hasattachments.getD false }
          rw [hI] at h2
          exact h2
        have hf := attStep_inv (c.messages.any fun m => m.attachment.isSome)
          (by simp [hc]) hA
        show some stf.hasattachments
          = some ((c.messages ++ [stf.message]).any fun m => m.attachment.isSome)
        rw [hf]
        simp
  · rw [except_pure_eq_ok] at h
    subst h
    exact hc

theorem tsMsgsFold_cinv : ∀ (l : List PyVal) (c c2 : Conversation),
    tsMsgsFold c l = .ok c2 →
    c.hasattachments = some (c.messages.any (fun m => m.attachment.isSome)) →
    c2.hasattachments = some (c2.messages.any (fun m => m.attachment.isSome)) := by
  intro l
  induction l with
  | nil =>
      intro c c2 h hc
      cases h
      exact hc
  | cons mo rest ih =>
      intro c c2 h hc
      unfold tsMsgsFold at h
      obtain ⟨cmid, hmid, h⟩ := except_bind_eq_ok.mp h
      exact ih cmid c2 h (tsMsgStep_cinv hmid hc)

/-- Claim C1, evaluated at the failing input: a three-message archive
whose middle message hits an AttributeError at a missing deeper element is
parsed into THREE messages — the faulty one is appended as an empty
dictionary between its intact, ordered siblings, not excluded from the
output sequence (the append at source line 196 is unconditional; the
debug text of lines 190 and 193 claims the message is skipped). -/
theorem c1_faulty_message_still_appended :
    parse_typedstream_chat c1Tschat = .ok c1Conv ∧
    c1Conv.messages.length = 3 ∧
    c1Conv.messages[1]? = some ({} : PyMessage) ∧
    c1Conv.messages.map (fun m => m.sender)
      = [some (.str (ps ("alice"))), Option.none, some (.str (ps ("bob")))] ∧
    c1Conv.messages.map (fun m => m.text)
      = [some (.str (ps ("one"))), Option.none, some (.str (ps ("three")))] :=
  ⟨rfl, rfl, rfl, rfl, rfl⟩

/-- Claim C4, evaluated at the failing input: a conversation with zero
discovered participants is normalized by appending the UNKNOWN sentinel
once, leaving a participants sequence of length 1 — below the claimed
lower bound of 2. -/
theorem c4_zero_participants_single_pad :
    bplist_to_conv c4Base = .ok c4Conv ∧
    c4Conv.participants = [.str (ps ("UNKNOWN"))] ∧
    c4Conv.participants.length = 1 :=
  ⟨rfl, rfl, rfl⟩

/-- Claim C7, counterexample: in Adapter A a message whose NSFileWrapper
is present but null sets hasattachments to true while the message carries
no attachment at all — the locally built placeholder is discarded — so
the flag is not true exactly when some message carries an attachment, and
no placeholder Attachment ends up on the message. -/
theorem c7_flag_without_attachment :
    bplist_to_conv c7Base = .ok c7Conv ∧
    c7Conv.hasattachments = some true ∧
    (c7Conv.messages.any fun m => m.attachment.isSome) = false ∧
    c7Conv.messages.map (fun m => m.attachment) = [Option.none] :=
  ⟨rfl, rfl, rfl, rfl⟩

/-- Claim C7, amended: in Adapter B the flag is boolean and true exactly
when some output message carries an attachment; in Adapter A the field is
absent when no file wrapper occurs, and a present-but-null wrapper sets
it to true while attaching nothing (the placeholder is discarded). -/
theorem c7_flag_semantics :
    (∀ (tschat : PyVal) (conv : Conversation),
        parse_typedstream_chat tschat = .ok conv →
        conv.hasattachments = some (conv.messages.any (fun m => m.attachment.isSome)))
  ∧ (bplist_to_conv c4Base).map (fun c => c.hasattachments) = .ok Option.none
  ∧ (bplist_to_conv c7Base).map
      (fun c => (c.hasattachments, c.messages.map (fun m => m.attachment)))
      = .ok (some true, [Option.none]) := by
  refine ⟨?_, rfl, rfl⟩
  intro ts conv h
  unfold parse_typedstream_chat at h
  obtain ⟨els, hels, h⟩ := except_bind_eq_ok.mp h
  obtain ⟨e0, he0, h⟩ := except_bind_eq_ok.mp h
  obtain ⟨protocol, hpro, h⟩ := except_bind_eq_ok.mp h
  obtain ⟨e2, he2, h⟩ := except_bind_eq_ok.mp h
  obtain ⟨e2els, he2e, h⟩ := except_bind_eq_ok.mp h
  obtain ⟨msgObjs, hmo, h⟩ := except_bind_eq_ok.mp h
  obtain ⟨c1, hc1, h⟩ := except_bind_eq_ok.mp h
  obtain ⟨tail2, ht2, h⟩ := except_bind_eq_ok.mp h
  have hcinv := tsMsgsFold_cinv msgObjs _ c1 hc1 (by rfl)
  rcases hr2 : tsL1Fold protocol c1.participants tail2 with ⟨parts2, err2⟩
  rw [hr2] at h
  cases err2 with
  | some e => simp at h
  | none =>
    dsimp only at h
    rcases hlast : c1.messages.getLast? with _ | m
    · simp only [hlast] at h
      exact Except.noConfusion h
    · simp only [hlast] at h
      rcases hdo : m.dateobj with _ | t
      · simp only [hdo] at h
        exact Except.noConfusion h
      · simp only [hdo] at h
        rw [except_pure_eq_ok] at h
        subst h
        exact hcinv

/-- Witness for claim C7 at a message that does carry an attachment: the
flag agrees with the attachment presence and is true. -/
theorem c7_flag_semantics_witness :
    parse_typedstream_chat c7bTschat = .ok c7bConv ∧
    c7bConv.hasattachments = some (c7bConv.messages.any (fun m => m.attachment.isSome)) ∧
    c7bConv.hasattachments = some true :=
  ⟨rfl, c7_flag_semantics.1 c7bTschat c7bConv rfl, rfl⟩

/-- Claim C8: for every keyed-archive input whose decoding succeeds and
whose metadata service name is the string s, the output protocol is AIM
when s is AOL Instant Messenger and s itself otherwise. -/
theorem c8_protocol_normalization :
    ∀ (base_obj m : PyVal) (conv : Conversation) (s : List Nat),
      bplist_to_conv base_obj = .ok conv →
      pySubscript base_obj (.str (ps ("metadata"))) = .ok m →
      pySubscript m (.str (ps ("Service"))) = .ok (.str s) →
      conv.protocol = some (if s = ps ("AOL Instant Messenger")
                            then PyVal.str (ps ("AIM")) else .str s) := by
  intro base_obj m conv s h hm hs
  unfold bplist_to_conv at h
  obtain ⟨pr, hpr, h⟩ := except_bind_eq_ok.mp h
  obtain ⟨c0, root⟩ := pr
  dsimp only at h
  obtain ⟨msgsVal, hmv, h⟩ := except_bind_eq_ok.mp h
  obtain ⟨msgs, hmsgs, h⟩ := except_bind_eq_ok.mp h
  obtain ⟨c1, hc1, h⟩ := except_bind_eq_ok.mp h
  rw [except_pure_eq_ok] at h
  subst h
  have hmeta := bplistMeta_fields hpr
  have hprot := hmeta.2.2 m (.str s) hm hs
  have hpres := (bplistMsgs_pres msgs c0 c1 hc1).1
  show c1.protocol = _
  rw [hpres, hprot, pyEq_str]
  by_cases hcase : s = ps ("AOL Instant Messenger")
  · simp [hcase]
  · simp [hcase]

/-- Witness for claim C8: the AOL service of c7Base normalizes to AIM and
the iChat service of c4Base passes through unchanged. -/
theorem c8_protocol_normalization_witness :
    c7Conv.protocol = some (.str (ps ("AIM"))) ∧
    c4Conv.protocol = some (.str (ps ("iChat"))) := by
  constructor
  · have h := c8_protocol_normalization c7Base (.dict bplistMetaAim) c7Conv
      (ps ("AOL Instant Messenger")) rfl rfl rfl
    simpa using h
  · have h := c8_protocol_normalization c4Base (.dict bplistMetaPlain) c4Conv
      (ps ("iChat")) rfl rfl rfl
    rw [if_neg (by decide)] at h
    exact h

/-- Claim C9: every conversation produced by Adapter A has its
conversation timestamp equal to the (always supplied) end time; every
conversation produced by Adapter B has it equal to the timestamp of the
last message of the output sequence, which exists and carries one. -/
theorem c9_conversation_time :
    (∀ (base_obj : PyVal) (conv : Conversation),
        bplist_to_conv base_obj = .ok conv →
        conv.dateobj = conv.endobj ∧ conv.endobj.isSome = true)
  ∧ (∀ (tschat : PyVal) (conv : Conversation),
        parse_typedstream_chat tschat = .ok conv →
        ∃ m, conv.messages.getLast? = some m ∧ m.dateobj.isSome = true ∧
             conv.dateobj = m.dateobj) := by
  constructor
  · intro base_obj conv h
    unfold bplist_to_conv at h
    obtain ⟨pr, hpr, h⟩ := except_bind_eq_ok.mp h
    obtain ⟨c0, root⟩ := pr
    dsimp only at h
    obtain ⟨msgsVal, hmv, h⟩ := except_bind_eq_ok.mp h
    obtain ⟨msgs, hmsgs, h⟩ := except_bind_eq_ok.mp h
    obtain ⟨c1, hc1, h⟩ := except_bind_eq_ok.mp h
    rw [except_pure_eq_ok] at h
    subst h
    have hmeta := bplistMeta_fields hpr
    obtain ⟨hp, hd, he, _⟩ := bplistMsgs_pres msgs c0 c1 hc1
    constructor
    · show c1.dateobj = c1.endobj
      rw [hd, he, hmeta.1]
    · show c1.endobj.isSome = true
      rw [he]
      obtain ⟨t, ht⟩ := hmeta.2.1
      rw [ht]
      rfl
  · intro ts conv h
    unfold parse_typedstream_chat at h
    obtain ⟨els, hels, h⟩ := except_bind_eq_ok.mp h
    obtain ⟨e0, he0, h⟩ := except_bind_eq_ok.mp h
    obtain ⟨protocol, hpro, h⟩ := except_bind_eq_ok.mp h
    obtain ⟨e2, he2, h⟩ := except_bind_eq_ok.mp h
    obtain ⟨e2els, he2e, h⟩ := except_bind_eq_ok.mp h
    obtain ⟨msgObjs, hmo, h⟩ := except_bind_eq_ok.mp h
    obtain ⟨c1, hc1, h⟩ := except_bind_eq_ok.mp h
    obtain ⟨tail2, ht2, h⟩ := except_bind_eq_ok.mp h
    rcases hr2 : tsL1Fold protocol c1.participants tail2 with ⟨parts2, err2⟩
    rw [hr2] at h
    cases err2 with
    | some e => simp at h
    | none =>
      dsimp only at h
      rcases hlast : c1.messages.getLast? with _ | m
      · simp only [hlast] at h
        exact Except.noConfusion h
      · simp only [hlast] at h
        rcases hdo : m.dateobj with _ | t
        · simp only [hdo] at h
          exact Except.noConfusion h
        · simp only [hdo] at h
          rw [except_pure_eq_ok] at h
          subst h
          exact ⟨m, hlast, by rw [hdo]; rfl, by rw [hdo]⟩

/-- Witness for claim C9: Adapter A on c7Base equates the conversation
timestamp with the end time; Adapter B on c1Tschat takes the last
message's timestamp. -/
theorem c9_conversation_time_witness :
    c7Conv.dateobj = c7Conv.endobj ∧
    (∃ m, c1Conv.messages.getLast? = some m ∧ c1Conv.dateobj = m.dateobj) := by
  constructor
  · exact (c9_conversation_time.1 c7Base c7Conv rfl).1
  · obtain ⟨m, h1, _h2, h3⟩ := c9_conversation_time.2 c1Tschat c1Conv rfl
    exact ⟨m, h1, h3⟩

/-! ## Truncation analysis of the container decoder -/

theorem except_bind_eq_err {α β : Type} {x : Except PyErr α} {f : α → Except PyErr β} {e : PyErr} :
    (x >>= f) = .error e ↔ x = .error e ∨ ∃ a, x = .ok a ∧ f a = .error e := by
  cases x with
  | error e2 => simp [ebind_err]
  | ok a => simp [ebind_ok]

theorem except_map_err {α β : Type} {g : α → β} {x : Except PyErr α} {e : PyErr} :
    (g <$> x) = .error e ↔ x = .error e := by
  cases x <;> simp [Functor.map, Except.map]

theorem unpackI32_err {l : List Nat} {e : PyErr} (h : unpackI32 l = .error e) :
    e = .structError := by
  unfold unpackI32 at h
  split at h
  · exact absurd h (by simp)
  · exact (Except.error.inj h).symm

theorem unpackI32_ok_length {l : List Nat} {v : Int} (h : unpackI32 l = .ok v) :
    l.length = 4 := by
  unfold unpackI32 at h
  split at h
  · simp_all
  · exact absurd h (by simp)

theorem unpackCBytes_err {n : Int} {sl : List Nat} {e : PyErr}
    (h : unpackCBytes n sl = .error e) : e = .structError := by
  unfold unpackCBytes at h
  split_ifs at h
  all_goals exact (Except.error.inj h).symm

theorem unpackCBytes_ok {n : Int} {sl bs : List Nat} (h : unpackCBytes n sl = .ok bs) :
    bs = sl ∧ (sl.length : Int) = n := by
  unfold unpackCBytes at h
  split_ifs at h
  all_goals exact ⟨(Except.ok.inj h).symm, by assumption⟩

theorem readI32_ok_bound {data : List Nat} {off : Int} {v : Int} (h0 : 0 ≤ off)
    (h : readI32 data off = .ok v) : off + 4 ≤ (data.length : Int) := by
  have hlen : (pyslice data off (off + 4)).length = 4 := unpackI32_ok_length h
  rw [pyslice_length] at hlen
  unfold pyBound at hlen
  split_ifs at hlen <;> omega

theorem cbytes_slice_ok_bound {data : List Nat} {off n : Int} {bs : List Nat} (h0 : 0 ≤ off)
    (h : unpackCBytes n (pyslice data off (off + n)) = .ok bs) :
    0 ≤ n ∧ (n = 0 ∨ off + n ≤ (data.length : Int)) := by
  obtain ⟨hbs, hlen⟩ := unpackCBytes_ok h
  have hn : 0 ≤ n := by omega
  rw [pyslice_length] at hlen
  unfold pyBound at hlen
  split_ifs at hlen <;> omega

theorem readPartNames_err (data : List Nat) : ∀ (k : Nat) (off : Int) (e : PyErr),
    readPartNames data k off = .error e → e = .structError := by
  intro k
  induction k with
  | zero =>
      intro off e h
      simp [readPartNames] at h
  | succ k2 ih =>
      intro off e h
      unfold readPartNames at h
      rcases except_bind_eq_err.mp h with h1 | ⟨pnl, hpnl, h⟩
      · exact unpackI32_err h1
      · rcases except_bind_eq_err.mp h with h1 | ⟨name, hname, h⟩
        · exact unpackCBytes_err h1
        · rcases except_bind_eq_err.mp h with h1 | ⟨pr, hpr, h⟩
          · exact ih _ _ h1
          · obtain ⟨rest, offr⟩ := pr
            dsimp only at h
            exact absurd h (by simp [pure, Except.pure])

theorem readPartSizes_err (data : List Nat) : ∀ (k : Nat) (off : Int) (e : PyErr),
    readPartSizes data k off = .error e → e = .structError := by
  intro k
  induction k with
  | zero =>
      intro off e h
      simp [readPartSizes] at h
  | succ k2 ih =>
      intro off e h
      unfold readPartSizes at h
      rcases except_bind_eq_err.mp h with h1 | ⟨s, hs, h⟩
      · exact unpackI32_err h1
      · rcases except_bind_eq_err.mp h with h1 | ⟨pr, hpr, h⟩
        · exact ih _ _ h1
        · obtain ⟨rest, offr⟩ := pr
          dsimp only at h
          exact absurd h (by simp [pure, Except.pure])

theorem readPartContents_err (data : List Nat) : ∀ (sizes : List Int) (off : Int) (e : PyErr),
    readPartContents data sizes off = .error e → e = .structError := by
  intro sizes
  induction sizes with
  | nil =>
      intro off e h
      simp [readPartContents] at h
  | cons s rest ih =>
      intro off e h
      unfold readPartContents at h
      rcases except_bind_eq_err.mp h with h1 | ⟨content, hcontent, h⟩
      · exact unpackCBytes_err h1
      · rcases except_bind_eq_err.mp h with h1 | ⟨pr, hpr, h⟩
        · exact ih _ _ h1
        · obtain ⟨cs, offr⟩ := pr
          dsimp only at h
          exact absurd h (by simp [pure, Except.pure])

theorem contentGeometry_err {cb : List Nat} {e : PyErr}
    (h : contentGeometry cb = .error e) : e = .structError := by
  unfold contentGeometry at h
  rcases except_bind_eq_err.mp h with h1 | ⟨v1, hv1, h⟩
  · exact unpackI32_err h1
  · rcases except_bind_eq_err.mp h with h1 | ⟨s, hs, h⟩
    · exact unpackI32_err h1
    · split at h
      · rcases except_bind_eq_err.mp h with h1 | ⟨s2, hs2, h⟩
        · exact unpackI32_err h1
        · rcases except_bind_eq_err.mp h with h1 | ⟨p, hp, h⟩
          · exact unpackI32_err h1
          · exact absurd h (by simp [pure, Except.pure])
      · exact absurd h (by simp [pure, Except.pure])

theorem parseContent_err {cb : List Nat} {e : PyErr}
    (h : parseContent cb = .error e) : e = .structError := by
  unfold parseContent at h
  rcases except_bind_eq_err.mp h with h1 | ⟨pr, hpr, h⟩
  · exact contentGeometry_err h1
  · obtain ⟨size, start⟩ := pr
    dsimp only at h
    exact unpackCBytes_err h

theorem mapM_parseContent_err : ∀ (l : List (List Nat)) (e : PyErr),
    l.mapM parseContent = .error e → e = .structError := by
  intro l
  induction l with
  | nil =>
      intro e h
      simp [List.mapM, List.mapM.loop] at h
      exact absurd h (by simp [pure, Except.pure])
  | cons cb rest ih =>
      intro e h
      rw [List.mapM_cons] at h
      rcases except_bind_eq_err.mp h with h1 | ⟨fb, hfb, h⟩
      · exact parseContent_err h1
      · rcases except_bind_eq_err.mp h with h1 | ⟨fbs, hfbs, h⟩
        · exact ih _ h1
        · exact absurd h (by simp [pure, Except.pure])

theorem utf8Go_err : ∀ (bs : List Nat) (k acc lo hi : Nat) (e : PyErr),
    utf8Go bs k acc lo hi = .error e → e = .unicodeDecodeError := by
  intro bs
  induction bs with
  | nil =>
      intro k acc lo hi e h
      cases k with
      | zero => simp [utf8Go] at h
      | succ k2 =>
          simp only [utf8Go] at h
          exact (Except.error.inj h).symm
  | cons b rest ih =>
      intro k acc lo hi e h
      cases k with
      | zero =>
          simp only [utf8Go] at h
          split_ifs at h
          all_goals first
            | exact ih _ _ _ _ _ (except_map_err.mp h)
            | exact ih _ _ _ _ _ h
            | exact (Except.error.inj h).symm
      | succ k2 =>
          cases k2 with
          | zero =>
              simp only [utf8Go] at h
              split_ifs at h
              all_goals first
                | exact ih _ _ _ _ _ (except_map_err.mp h)
                | exact (Except.error.inj h).symm
          | succ k3 =>
              simp only [utf8Go] at h
              split_ifs at h
              all_goals first
                | exact ih _ _ _ _ _ h
                | exact (Except.error.inj h).symm

theorem utf8Decode_err {bs : List Nat} {e : PyErr} (h : utf8Decode bs = .error e) :
    e = .unicodeDecodeError :=
  utf8Go_err bs 0 0 0 0 e h

theorem asciiDecode_err {bs : List Nat} {e : PyErr} (h : asciiDecode bs = .error e) :
    e = .unicodeDecodeError := by
  unfold asciiDecode at h
  split_ifs at h
  exact (Except.error.inj h).symm

theorem resolveFilename_err : ∀ (parts : List RtfdPart) (e : PyErr),
    resolveFilename parts = .error e → e = .unicodeDecodeError := by
  intro parts
  induction parts with
  | nil =>
      intro e h
      simp [resolveFilename] at h
  | cons p rest ih =>
      intro e h
      unfold resolveFilename at h
      split_ifs at h
      · exact utf8Decode_err (except_map_err.mp h)
      · exact asciiDecode_err (except_map_err.mp h)
      · exact ih _ h

theorem decode_header_trunc {data : List Nat} (hm : hasRtfdMagicB data = true)
    (hlen : data.length < 16) : decode_rtfd data = .error .structError := by
  unfold decode_rtfd
  rw [hm]
  by_cases h8 : data.length < 8
  · rw [readI32_oob data 4 (by norm_num) (by exact_mod_cast by omega)]
    rfl
  · obtain ⟨v4, hv4⟩ := readI32_ok data 4 (by norm_num) (by exact_mod_cast by omega)
    rw [hv4, ebind_ok]
    by_cases h12 : data.length < 12
    · rw [readI32_oob data 8 (by norm_num) (by exact_mod_cast by omega)]
      rfl
    · obtain ⟨v8, hv8⟩ := readI32_ok data 8 (by norm_num) (by exact_mod_cast by omega)
      rw [hv8, ebind_ok]
      rw [readI32_oob data 12 (by norm_num) (by exact_mod_cast by omega)]
      rfl

theorem decode_reduction {data : List Nat} {np : Int} (hm : hasRtfdMagicB data = true)
    (hlen : 16 ≤ data.length) (hnp : readI32 data 12 = .ok np) :
    decode_rtfd data = (do
      let (names, off1) ← readPartNames data np.toNat 16
      let (sizes, off2) ← readPartSizes data names.length off1
      let (contents, _off3) ← readPartContents data sizes off2
      let filebytesList ← contents.mapM parseContent
      let parts := buildParts 0 names sizes contents filebytesList
      let filename ← resolveFilename parts
      let fdata := resolveData parts
      return (⟨filename, fdata⟩ : RtfdOut)) := by
  unfold decode_rtfd
  rw [hm]
  obtain ⟨v4, hv4⟩ := readI32_ok data 4 (by norm_num) (by exact_mod_cast by omega)
  obtain ⟨v8, hv8⟩ := readI32_ok data 8 (by norm_num) (by exact_mod_cast by omega)
  rw [hv4, ebind_ok, hv8, ebind_ok, hnp, ebind_ok]
  rfl

theorem readPartNames_bound (data : List Nat) : ∀ (k : Nat) (off off2 : Int)
    (names : List (List Nat)), 0 ≤ off → off ≤ (data.length : Int) →
    readPartNames data k off = .ok (names, off2) →
    off ≤ off2 ∧ off2 ≤ (data.length : Int) := by
  intro k
  induction k with
  | zero =>
      intro off off2 names h0 hle h
      have h2 := Except.ok.inj h
      injection h2 with hA hB
      omega
  | succ k2 ih =>
      intro off off2 names h0 hle h
      unfold readPartNames at h
      obtain ⟨pnl, hpnl, h⟩ := except_bind_eq_ok.mp h
      obtain ⟨name, hname, h⟩ := except_bind_eq_ok.mp h
      obtain ⟨pr, hpr, h⟩ := except_bind_eq_ok.mp h
      obtain ⟨rest, offr⟩ := pr
      dsimp only at h
      rw [except_pure_eq_ok] at h
      injection h with hA hB
      have hb1 : off + 4 ≤ (data.length : Int) := readI32_ok_bound h0 hpnl
      obtain ⟨hn0, hcases⟩ := cbytes_slice_ok_bound (by omega) hname
      have hstep1 : off + 4 + pnl ≤ (data.length : Int) := by
        rcases hcases with h2 | h2 <;> omega
      obtain ⟨g1, g2⟩ := ih (off + 4 + pnl) offr rest (by omega) hstep1 hpr
      omega

theorem readPartSizes_bound (data : List Nat) : ∀ (k : Nat) (off off2 : Int)
    (sizes : List Int), 0 ≤ off → off ≤ (data.length : Int) →
    readPartSizes data k off = .ok (sizes, off2) →
    off ≤ off2 ∧ off2 ≤ (data.length : Int) := by
  intro k
  induction k with
  | zero =>
      intro off off2 sizes h0 hle h
      have h2 := Except.ok.inj h
      injection h2 with hA hB
      omega
  | succ k2 ih =>
      intro off off2 sizes h0 hle h
      unfold readPartSizes at h
      obtain ⟨s, hs, h⟩ := except_bind_eq_ok.mp h
      obtain ⟨pr, hpr, h⟩ := except_bind_eq_ok.mp h
      obtain ⟨rest, offr⟩ := pr
      dsimp only at h
      rw [except_pure_eq_ok] at h
      injection h with hA hB
      have hb1 : off + 4 ≤ (data.length : Int) := readI32_ok_bound h0 hs
      obtain ⟨g1, g2⟩ := ih (off + 4) offr rest (by omega) (by omega) hpr
      omega

theorem readPartContents_bound (data : List Nat) : ∀ (sizes : List Int) (off off2 : Int)
    (contents : List (List Nat)), 0 ≤ off → off ≤ (data.length : Int) →
    readPartContents data sizes off = .ok (contents, off2) →
    off ≤ off2 ∧ off2 ≤ (data.length : Int) := by
  intro sizes
  induction sizes with
  | nil =>
      intro off off2 contents h0 hle h
      have h2 := Except.ok.inj h
      injection h2 with hA hB
      omega
  | cons s rest ih =>
      intro off off2 contents h0 hle h
      unfold readPartContents at h
      obtain ⟨content, hcontent, h⟩ := except_bind_eq_ok.mp h
      obtain ⟨pr, hpr, h⟩ := except_bind_eq_ok.mp h
      obtain ⟨cs, offr⟩ := pr
      dsimp only at h
      rw [except_pure_eq_ok] at h
      injection h with hA hB
      obtain ⟨hn0, hcases⟩ := cbytes_slice_ok_bound h0 hcontent
      have hstep1 : off + s ≤ (data.length : Int) := by
        rcases hcases with h2 | h2 <;> omega
      obtain ⟨g1, g2⟩ := ih (off + s) offr cs (by omega) hstep1 hpr
      omega

/-- Claim C6: whenever a length or size field of a container buffer makes
a read run past the end of the buffer, decode_rtfd fails with the
distinguished struct-unpack truncation error, distinct from the
missing-magic TypeError, and never reads out of bounds or succeeds with
garbage.  In order: the missing magic fails with TypeError before any
table is read; with the magic present every decode failure is the
truncation/format struct error or the filename-decode unicode error
(never the magic error); the two read primitives — the 4-byte integer
read and the exact-count byte read all tables go through — fail with
struct.error precisely on overrun, and when they succeed they return the
exact in-bounds slice of the declared length (no clamping or padding is
possible); a buffer whose 16-byte header overruns fails; a failing name
table, size table, content table or per-part inner decode each forces
decode_rtfd itself to return the struct error, whatever well-formed
prefix preceded it; each of the three table stages keeps its cursor
within the buffer whenever it succeeds; and the struct error is distinct
from the missing-magic TypeError. -/
theorem c6_truncation_errors :
    (∀ data : List Nat, hasRtfdMagicB data = false → decode_rtfd data = .error .typeError)
  ∧ (∀ (data : List Nat) (e : PyErr), hasRtfdMagicB data = true →
        decode_rtfd data = .error e → e = .structError ∨ e = .unicodeDecodeError)
  ∧ (∀ (data : List Nat) (off : Int), 0 ≤ off →
        (readI32 data off = .error .structError ↔ (data.length : Int) < off + 4))
  ∧ (∀ (data : List Nat) (off n : Int), 0 ≤ off → 0 < n → (data.length : Int) < off + n →
        unpackCBytes n (pyslice data off (off + n)) = .error .structError)
  ∧ (∀ (n : Int) (sl bs : List Nat), unpackCBytes n sl = .ok bs →
        bs = sl ∧ (sl.length : Int) = n)
  ∧ (∀ data : List Nat, hasRtfdMagicB data = true → data.length < 16 →
        decode_rtfd data = .error .structError)
  ∧ (∀ (data : List Nat) (np : Int) (e : PyErr), hasRtfdMagicB data = true →
        16 ≤ data.length → readI32 data 12 = .ok np →
        readPartNames data np.toNat 16 = .error e →
        e = .structError ∧ decode_rtfd data = .error .structError)
  ∧ (∀ (data : List Nat) (np : Int) (names : List (List Nat)) (off1 : Int) (e : PyErr),
        hasRtfdMagicB data = true → 16 ≤ data.length → readI32 data 12 = .ok np →
        readPartNames data np.toNat 16 = .ok (names, off1) →
        readPartSizes data names.length off1 = .error e →
        e = .structError ∧ decode_rtfd data = .error .structError)
  ∧ (∀ (data : List Nat) (np : Int) (names : List (List Nat)) (off1 : Int)
        (sizes : List Int) (off2 : Int) (e : PyErr),
        hasRtfdMagicB data = true → 16 ≤ data.length → readI32 data 12 = .ok np →
        readPartNames data np.toNat 16 = .ok (names, off1) →
        readPartSizes data names.length off1 = .ok (sizes, off2) →
        readPartContents data sizes off2 = .error e →
        e = .structError ∧ decode_rtfd data = .error .structError)
  ∧ (∀ (data : List Nat) (np : Int) (names : List (List Nat)) (off1 : Int)
        (sizes : List Int) (off2 : Int) (contents : List (List Nat)) (off3 : Int) (e : PyErr),
        hasRtfdMagicB data = true → 16 ≤ data.length → readI32 data 12 = .ok np →
        readPartNames data np.toNat 16 = .ok (names, off1) →
        readPartSizes data names.length off1 = .ok (sizes, off2) →
        readPartContents data sizes off2 = .ok (contents, off3) →
        contents.mapM parseContent = .error e →
        e = .structError ∧ decode_rtfd data = .error .structError)
  ∧ (∀ (data : List Nat) (k : Nat) (off off2 : Int) (names : List (List Nat)),
        0 ≤ off → off ≤ (data.length : Int) →
        readPartNames data k off = .ok (names, off2) →
        off ≤ off2 ∧ off2 ≤ (data.length : Int))
  ∧ (∀ (data : List Nat) (k : Nat) (off off2 : Int) (sizes : List Int),
        0 ≤ off → off ≤ (data.length : Int) →
        readPartSizes data k off = .ok (sizes, off2) →
        off ≤ off2 ∧ off2 ≤ (data.length : Int))
  ∧ (∀ (data : List Nat) (sizes : List Int) (off off2 : Int) (contents : List (List Nat)),
        0 ≤ off → off ≤ (data.length : Int) →
        readPartContents data sizes off = .ok (contents, off2) →
        off ≤ off2 ∧ off2 ≤ (data.length : Int))
  ∧ PyErr.structError ≠ PyErr.typeError := by
  refine ⟨?_, ?_, ?_, ?_, ?_, ?_, ?_, ?_, ?_, ?_, ?_, ?_, ?_, by decide⟩
  · intro data hm
    unfold decode_rtfd
    rw [hm]
    rfl
  · intro data e hm h
    by_cases hlen : data.length < 16
    · rw [decode_header_trunc hm hlen] at h
      exact Or.inl (Except.error.inj h).symm
    · push_neg at hlen
      obtain ⟨np, hnp⟩ := readI32_ok data 12 (by norm_num) (by exact_mod_cast by omega)
      rw [decode_reduction hm hlen hnp] at h
      rcases except_bind_eq_err.mp h with h1 | ⟨pr, hpr, h⟩
      · exact Or.inl (readPartNames_err data _ _ _ h1)
      · obtain ⟨names, off1⟩ := pr
        dsimp only at h
        rcases except_bind_eq_err.mp h with h1 | ⟨pr2, hpr2, h⟩
        · exact Or.inl (readPartSizes_err data _ _ _ h1)
        · obtain ⟨sizes, off2⟩ := pr2
          dsimp only at h
          rcases except_bind_eq_err.mp h with h1 | ⟨pr3, hpr3, h⟩
          · exact Or.inl (readPartContents_err data _ _ _ h1)
          · obtain ⟨contents, off3⟩ := pr3
            dsimp only at h
            rcases except_bind_eq_err.mp h with h1 | ⟨fbs, hfbs, h⟩
            · exact Or.inl (mapM_parseContent_err _ _ h1)
            · try dsimp only at h
              rcases except_bind_eq_err.mp h with h1 | ⟨fn, hfn, h⟩
              · exact Or.inr (resolveFilename_err _ _ h1)
              · exact absurd h (by simp [pure, Except.pure])
  · intro data off h0
    constructor
    · intro h
      by_contra hc
      push_neg at hc
      obtain ⟨v, hv⟩ := readI32_ok data off h0 hc
      rw [hv] at h
      exact Except.noConfusion h
    · exact readI32_oob data off h0
  · intro data off n h0 hn hlen
    unfold unpackCBytes
    rw [if_neg (by omega)]
    have hL : ¬ (((pyslice data off (off + n)).length : Int) = n) := by
      rw [pyslice_length]
      unfold pyBound
      split_ifs <;> omega
    rw [if_neg hL]
  · intro n sl bs h
    exact unpackCBytes_ok h
  · intro data hm hlen
    exact decode_header_trunc hm hlen
  · intro data np e hm hlen hnp hnames
    refine ⟨readPartNames_err data _ _ _ hnames, ?_⟩
    rw [decode_reduction hm hlen hnp, hnames, ebind_err,
        readPartNames_err data _ _ _ hnames]
  · intro data np names off1 e hm hlen hnp hnames hsz
    refine ⟨readPartSizes_err data _ _ _ hsz, ?_⟩
    rw [decode_reduction hm hlen hnp, hnames, ebind_ok]
    try dsimp only
    rw [hsz, ebind_err, readPartSizes_err data _ _ _ hsz]
  · intro data np names off1 sizes off2 e hm hlen hnp hnames hsizes hct
    refine ⟨readPartContents_err data _ _ _ hct, ?_⟩
    rw [decode_reduction hm hlen hnp, hnames, ebind_ok]
    try dsimp only
    rw [hsizes, ebind_ok]
    try dsimp only
    rw [hct, ebind_err, readPartContents_err data _ _ _ hct]
  · intro data np names off1 sizes off2 contents off3 e hm hlen hnp hnames hsizes hct hmap
    refine ⟨mapM_parseContent_err _ _ hmap, ?_⟩
    rw [decode_reduction hm hlen hnp, hnames, ebind_ok]
    try dsimp only
    rw [hsizes, ebind_ok]
    try dsimp only
    rw [hct, ebind_ok]
    try dsimp only
    rw [hmap, ebind_err, mapM_parseContent_err _ _ hmap]
  · exact readPartNames_bound
  · exact readPartSizes_bound
  · exact readPartContents_bound

/-- Witness for claim C6: one concrete buffer for each truncation site —
after the header, after the name table, after the size table, and inside
a part's content block — each making decode_rtfd fail with struct.error;
plus the bare header, the missing magic, a 4-byte read on the empty
buffer, and an overrunning exact-count byte read. -/
theorem c6_truncation_errors_witness :
    decode_rtfd c6NamesTrunc = .error .structError ∧
    decode_rtfd c6SizesTrunc = .error .structError ∧
    decode_rtfd c6ContentsTrunc = .error .structError ∧
    decode_rtfd c6InnerTrunc = .error .structError ∧
    decode_rtfd (ps ("rtfd")) = .error .structError ∧
    decode_rtfd (ps ("xxxx")) = .error .typeError ∧
    readI32 [] 0 = .error .structError ∧
    unpackCBytes 5 (pyslice c6ContentsTrunc 25 (25 + 5)) = .error .structError := by
  refine ⟨?_, ?_, ?_, ?_, ?_, ?_, ?_, ?_⟩
  · exact (c6_truncation_errors.2.2.2.2.2.2.1 c6NamesTrunc 1 .structError rfl (by decide)
      rfl rfl).2
  · exact (c6_truncation_errors.2.2.2.2.2.2.2.1 c6SizesTrunc 1 [ps ("A")] 21 .structError
      rfl (by decide) rfl rfl rfl).2
  · exact (c6_truncation_errors.2.2.2.2.2.2.2.2.1 c6ContentsTrunc 1 [ps ("A")] 21 [5] 25
      .structError rfl (by decide) rfl rfl rfl rfl).2
  · exact (c6_truncation_errors.2.2.2.2.2.2.2.2.2.1 c6InnerTrunc 1 [ps ("A")] 21 [6] 25
      [[1, 0, 0, 0, 99, 0]] 31 .structError rfl (by decide) rfl rfl rfl rfl rfl).2
  · exact c6_truncation_errors.2.2.2.2.2.1 (ps ("rtfd")) rfl (by decide)
  · exact c6_truncation_errors.1 (ps ("xxxx")) rfl
  · exact (c6_truncation_errors.2.2.1 [] 0 (by decide)).mpr (by decide)
  · exact c6_truncation_errors.2.2.2.1 c6ContentsTrunc 25 5 (by decide) (by decide) (by decide)
